import Mathlib

/-!
Verification development for the `telegram-me` service: a shallow embedding of
the HTML-entity extraction pipeline (`app/telegram/parser/types/entities.py`),
the post parser (`app/telegram/parser/types/post.py`), the Telegram facade
(`app/telegram/telegram.py`), the feed scoring engine (`app/utils/feed.py`)
and the feed route (`app/routes/v1/feed.py`), together with proofs and
refutations of the specification claims about them.

Python strings are modelled as `List Char` (sequences of Unicode scalar
values), Python `int` as `Int`, Python `float` arithmetic as exact rational
arithmetic over `ℚ`, dictionaries with optional keys as structures with
`Option` fields, and raising code as `Except`-valued functions.
-/

namespace TMe

/-! ### Python string primitives over `List Char` -/

abbrev Chars := List Char

/-- `sub` occurs in `hay` starting at index `i`. -/
def occursAt (hay sub : Chars) (i : Nat) : Bool :=
  decide ((hay.drop i).take sub.length = sub)

/-- Normalization of the `start` argument of Python `str.find`: a negative
start is interpreted relative to the end and clamped at 0. -/
def pyStart (n : Nat) (start : Int) : Nat :=
  if start < 0 then (start + (n : Int)).toNat else start.toNat

/-- Python `str.find(sub, start)`: smallest index `i ≥ start` at which `sub`
occurs in `hay`; `-1` when there is none. -/
def pyFind (hay sub : Chars) (start : Int) : Int :=
  match (List.range (hay.length + 1)).find?
      (fun i => decide (pyStart hay.length start ≤ i) && occursAt hay sub i) with
  | some i => (i : Int)
  | none => -1

/-- Normalization of one Python slice endpoint: negative indices count from the
end (clamped at 0), positive ones are clamped at the length. -/
def pyIdx (n : Nat) (i : Int) : Nat :=
  if i < 0 then (i + (n : Int)).toNat else min i.toNat n

/-- Python slicing `l[a:b]` with full negative-index and clamping semantics. -/
def pySlice (l : Chars) (a b : Int) : Chars :=
  (l.take (pyIdx l.length b)).drop (pyIdx l.length a)

/-- Python `str.strip(chars)`: remove the characters of `cs` from both ends. -/
def stripSet (cs : Chars) (l : Chars) : Chars :=
  ((l.dropWhile (cs.contains ·)).reverse.dropWhile (cs.contains ·)).reverse

/-- Python `str.replace(sub, repl)` (all non-overlapping occurrences, left to
right); the fuel argument is the input length. -/
def replaceSubAux (sub repl : Chars) : Chars → Nat → Chars
  | l, 0 => l
  | l, fuel + 1 =>
    if !sub.isEmpty && occursAt l sub 0 then repl ++ replaceSubAux sub repl (l.drop sub.length) fuel
    else
      match l with
      | [] => []
      | c :: rest => c :: replaceSubAux sub repl rest fuel

def replaceSub (sub repl l : Chars) : Chars :=
  replaceSubAux sub repl l (l.length + 1)

/-- Python `str.lower` restricted to ASCII (the strings it is applied to in the
embedded code are validated channel names over `[A-Za-z0-9_]`). -/
def lowerChar (c : Char) : Char :=
  if 'A' ≤ c ∧ c ≤ 'Z' then Char.ofNat (c.toNat + 32) else c

def lowerStr (s : String) : String := ⟨s.data.map lowerChar⟩

/-- Python `int(str)` on the strings produced by the scraper: an optional sign
followed by one or more ASCII digits (no underscore grouping, which the source
markup never contains). Failure models `ValueError`. -/
def pyIntOfChars (l : Chars) : Option Int :=
  let core : Chars → Option Int := fun ds =>
    if ds.isEmpty || !ds.all Char.isDigit then none
    else some ((ds.foldl (fun acc c => acc * 10 + (c.toNat - '0'.toNat)) 0 : Nat) : Int)
  match l with
  | '-' :: rest => (core rest).map (fun v => -v)
  | '+' :: rest => core rest
  | _ => core l

/-! ### A backtracking regular-expression engine

The entity parser (`entities.py`) and several helpers (`methods/utils.py`,
`post.py`) are driven by Python `re` patterns.  The patterns are embedded as
terms of the `RE` type below and executed by a continuation-passing
backtracking matcher with Python's preferences: leftmost match, earlier
alternative first, greedy/lazy repetition order, negative lookahead, numbered
capturing groups.  All patterns in the source are compiled with `re.DOTALL`
(so `.` matches every character, embedded as a true predicate) and without
`re.MULTILINE` (so `$` matches only at the end, or before a final newline). -/

inductive RE where
  | eps
  | ch (p : Char → Bool)
  | seq (a b : RE)
  | alt (a b : RE)
  | star (lazy : Bool) (r : RE)
  | grp (i : Nat) (r : RE)
  | nla (r : RE)
  | eos

/-- Captured groups: group number to captured text, latest capture first. -/
abbrev Groups := List (Nat × Chars)

def gset (g : Groups) (i : Nat) (v : Chars) : Groups :=
  (i, v) :: g.filter (fun p => p.1 ≠ i)

def gget (g : Groups) (i : Nat) : Option Chars := g.lookup i

/-- Backtracking matcher in continuation-passing style.  `s` is the remaining
input, `pos` the absolute position, `k` the continuation receiving the state
after the current node; the result is the final position and groups of the
first overall success in Python preference order.  The fuel bounds the
recursion depth; repetitions that consume no input are cut off exactly as in
Python's engine. -/
def reMatch : Nat → RE → Chars → Nat → Groups →
    (Chars → Nat → Groups → Option (Nat × Groups)) → Option (Nat × Groups)
  | 0, _, _, _, _, _ => none
  | fuel + 1, re, s, pos, g, k =>
    match re with
    | .eps => k s pos g
    | .eos => if s.isEmpty || s = ['\n'] then k s pos g else none
    | .ch p =>
      match s with
      | [] => none
      | c :: rest => if p c then k rest (pos + 1) g else none
    | .seq a b => reMatch fuel a s pos g (fun s1 p1 g1 => reMatch fuel b s1 p1 g1 k)
    | .alt a b =>
      match reMatch fuel a s pos g k with
      | some res => some res
      | none => reMatch fuel b s pos g k
    | .star lz r =>
      if lz then
        match k s pos g with
        | some res => some res
        | none =>
          reMatch fuel r s pos g (fun s1 p1 g1 =>
            if p1 = pos then none else reMatch fuel (.star lz r) s1 p1 g1 k)
      else
        match reMatch fuel r s pos g (fun s1 p1 g1 =>
            if p1 = pos then none else reMatch fuel (.star lz r) s1 p1 g1 k) with
        | some res => some res
        | none => k s pos g
    | .grp i r =>
      reMatch fuel r s pos g (fun s1 p1 g1 => k s1 p1 (gset g1 i (s.take (p1 - pos))))
    | .nla r =>
      match reMatch fuel r s pos g (fun _ p1 g1 => some (p1, g1)) with
      | some _ => none
      | none => k s pos g

/-- Generous recursion-depth budget for the patterns of this code base. -/
def reFuel (s : Chars) : Nat := (s.length + 2) * 400

def reMatchAt (re : RE) (input : Chars) (pos : Nat) : Option (Nat × Groups) :=
  reMatch (reFuel input) re (input.drop pos) pos [] (fun _ p g => some (p, g))

structure MatchInfo where
  mstart : Nat
  mstop : Nat
  text : Chars
  groups : Groups
deriving Repr, DecidableEq

/-- `re.finditer`: scan start positions left to right, continue after each
match (advancing by one on a zero-width match, as Python does). -/
def findIterAux (re : RE) (input : Chars) : Nat → Nat → List MatchInfo
  | _, 0 => []
  | pos, fuel + 1 =>
    if pos > input.length then []
    else
      match reMatchAt re input pos with
      | some (stop, g) =>
        { mstart := pos, mstop := stop, text := (input.take stop).drop pos, groups := g } ::
          findIterAux re input (if stop = pos then pos + 1 else stop) fuel
      | none => findIterAux re input (pos + 1) fuel

def findIter (re : RE) (input : Chars) : List MatchInfo :=
  findIterAux re input 0 (input.length + 1)

/-- `re.search`: first match. -/
def reSearch (re : RE) (input : Chars) : Option MatchInfo :=
  (findIter re input).head?

def spliceSub (input repl : Chars) : List MatchInfo → Nat → Chars
  | [], cur => input.drop cur
  | m :: ms, cur => ((input.take m.mstart).drop cur) ++ repl ++ spliceSub input repl ms m.mstop

/-- `re.sub(re, repl, input)` for a constant replacement. -/
def reSubAll (re : RE) (repl : Chars) (input : Chars) : Chars :=
  spliceSub input repl (findIter re input) 0

/-! #### Pattern construction helpers -/

def reCat : List RE → RE
  | [] => .eps
  | [r] => r
  | r :: rs => .seq r (reCat rs)

def reAlts : List RE → RE
  | [] => .nla .eps
  | [r] => r
  | r :: rs => .alt r (reAlts rs)

/-- Literal string. -/
def reStr (s : String) : RE := reCat (s.data.map (fun c => RE.ch (fun x => x = c)))

/-- Literal string, case-insensitively (`re.I`). -/
def reStrCI (s : String) : RE :=
  reCat (s.data.map (fun c => RE.ch (fun x => lowerChar x = lowerChar c)))

def reAnyC : RE := .ch (fun _ => true)

def reNotC (c : Char) : RE := .ch (fun x => x ≠ c)

def lazyStar (r : RE) : RE := .star true r

def greedyStar (r : RE) : RE := .star false r

def lazyPlus (r : RE) : RE := .seq r (.star true r)

def greedyPlus (r : RE) : RE := .seq r (.star false r)

def optGreedy (r : RE) : RE := .alt r .eps

/-- Python `\w` restricted to its ASCII range (letters, digits, underscore);
the inputs in all theorems below are ASCII. -/
def wordChar (c : Char) : Bool := c.isAlphanum || c = '_'

/-- Python `\s` (ASCII range). -/
def spaceChar (c : Char) : Bool :=
  c = ' ' || c = '\t' || c = '\n' || c = '\r' || c = '\x0b' || c = '\x0c'

/-! ### The entity parser (`app/telegram/parser/types/entities.py`)

The eleven patterns of `EntitiesParser.patterns`, each wrapped in one extra
capturing group by `combined_pattern` (`"|".join(f"({p})" ...)`); group
numbers therefore run 1–26 exactly as in the compiled Python pattern. -/

/-- `(#\w+)` (wrap group 1, inner group 2). -/
def pHashtag : RE :=
  .grp 1 (.grp 2 (.seq (.ch (fun c => c = '#')) (greedyPlus (.ch wordChar))))

/-- `<b>(.+?)<\/b>(?![^<]*<\/i>)` (groups 3, 4). -/
def pBold : RE :=
  .grp 3 (reCat [reStr "<b>", .grp 4 (lazyPlus reAnyC), reStr "</b>",
    .nla (reCat [greedyStar (reNotC '<'), reStr "</i>"])])

/-- `<i>(.+?)<\/i>` (groups 5, 6). -/
def pItalic : RE :=
  .grp 5 (reCat [reStr "<i>", .grp 6 (lazyPlus reAnyC), reStr "</i>"])

/-- `<u>(.+?)<\/u>` (groups 7, 8). -/
def pUnder : RE :=
  .grp 7 (reCat [reStr "<u>", .grp 8 (lazyPlus reAnyC), reStr "</u>"])

/-- `<code>(.+?)<\/code>` (groups 9, 10). -/
def pCode : RE :=
  .grp 9 (reCat [reStr "<code>", .grp 10 (lazyPlus reAnyC), reStr "</code>"])

/-- `<s>(.+?)<\/s>` (groups 11, 12). -/
def pStrike : RE :=
  .grp 11 (reCat [reStr "<s>", .grp 12 (lazyPlus reAnyC), reStr "</s>"])

/-- `<tg-spoiler>(.+?)<\/tg-spoiler>` (groups 13, 14). -/
def pSpoiler : RE :=
  .grp 13 (reCat [reStr "<tg-spoiler>", .grp 14 (lazyPlus reAnyC), reStr "</tg-spoiler>"])

/-- `<i\s+class="emoji"\s+style=".*?:url\('(.*?)'\)"><b>(.*?)<\/b><\/i>(?![^<]*<\/tg-emoji>)`
(groups 15, 16, 17). -/
def pEmoji : RE :=
  .grp 15 (reCat [reStr "<i", greedyPlus (.ch spaceChar), reStr "class=\"emoji\"",
    greedyPlus (.ch spaceChar), reStr "style=\"", lazyStar reAnyC, reStr ":url('",
    .grp 16 (lazyStar reAnyC), reStr "')\">", reStr "<b>", .grp 17 (lazyStar reAnyC),
    reStr "</b></i>", .nla (reCat [greedyStar (reNotC '<'), reStr "</tg-emoji>"])])

/-- `<a\s+(?:[^>]*?\s+)?href="([^"]*)"[^>]*\s+onclick="[^"]*"[^>]*>(.*?)<\/a>`
(groups 18, 19, 20). -/
def pLinkOnclick : RE :=
  .grp 18 (reCat [reStr "<a", greedyPlus (.ch spaceChar),
    optGreedy (reCat [lazyStar (reNotC '>'), greedyPlus (.ch spaceChar)]),
    reStr "href=\"", .grp 19 (greedyStar (reNotC '"')), reStr "\"",
    greedyStar (reNotC '>'), greedyPlus (.ch spaceChar), reStr "onclick=\"",
    greedyStar (reNotC '"'), reStr "\"", greedyStar (reNotC '>'), reStr ">",
    .grp 20 (lazyStar reAnyC), reStr "</a>"])

/-- `<a\s+(?:[^>]*?\s+)?href="(?!(?:.*#))(.*?)"[^>]*>(.*?)<\/a>` (groups 21, 22, 23). -/
def pUrl : RE :=
  .grp 21 (reCat [reStr "<a", greedyPlus (.ch spaceChar),
    optGreedy (reCat [lazyStar (reNotC '>'), greedyPlus (.ch spaceChar)]),
    reStr "href=\"", .nla (.seq (greedyStar reAnyC) (.ch (fun c => c = '#'))),
    .grp 22 (lazyStar reAnyC), reStr "\"", greedyStar (reNotC '>'), reStr ">",
    .grp 23 (lazyStar reAnyC), reStr "</a>"])

/-- `<tg-emoji.*?><i\s+class="emoji"\s+style="background-image:url\('(.*?)'\)"><b>(.*?)</b></i></tg-emoji>`
(groups 24, 25, 26). -/
def pAnimoji : RE :=
  .grp 24 (reCat [reStr "<tg-emoji", lazyStar reAnyC, reStr ">", reStr "<i",
    greedyPlus (.ch spaceChar), reStr "class=\"emoji\"", greedyPlus (.ch spaceChar),
    reStr "style=\"background-image:url('", .grp 25 (lazyStar reAnyC), reStr "')\">",
    reStr "<b>", .grp 26 (lazyStar reAnyC), reStr "</b></i></tg-emoji>"])

/-- `EntitiesParser.combined_pattern`: the alternation of all eleven patterns,
in source order. -/
def combinedRe : RE :=
  reAlts [pHashtag, pBold, pItalic, pUnder, pCode, pStrike, pSpoiler, pEmoji,
    pLinkOnclick, pUrl, pAnimoji]

/-- `<br\s?/?>` (line-break normalization in `EntitiesParser.__init__`). -/
def brRe : RE :=
  reCat [reStr "<br", optGreedy (.ch spaceChar), optGreedy (.ch (fun c => c = '/')), reStr ">"]

/-- `<[^>]+>` (tag stripping). -/
def tagRe : RE :=
  reCat [.ch (fun c => c = '<'), greedyPlus (reNotC '>'), .ch (fun c => c = '>')]

/-- `self.html_text`: the body with `<br>` variants replaced by newlines. -/
def htmlTextOf (body : Chars) : Chars := reSubAll brRe ['\n'] body

/-- `self.text_only`: `html_text` with all tags stripped. -/
def textOnlyOf (body : Chars) : Chars := reSubAll tagRe [] (htmlTextOf body)

/-- One parsed entity (the dictionary built by `_create_entity_dict`); the
`url` key is present only when the captured URL group was truthy. -/
structure Entity where
  offset : Int
  length : Nat
  etype : String
  url : Option Chars
deriving Repr, DecidableEq

/-- `EntitiesParser.idx_map`. -/
def idxMap : List Nat := [1, 3, 5, 7, 9, 11, 13, 14, 17, 20, 23]

/-- `EntitiesParser.entity_types`. -/
def entityTypes : List (Option String) :=
  [some "hashtag", some "bold", some "italic", some "underline", some "code",
   some "strikethrough", some "spoiler", some "emoji", some "text_link", none,
   some "url", some "animoji"]

/-- `EntitiesParser.message_type` (an out-of-range index yields `None`). -/
def messageType (idx : Nat) : Option String := entityTypes.getD (idx / 2) none

/-- `EntitiesParser.entity_depth_map`. -/
def entityDepth (t : String) : Option Nat :=
  if t = "text_link" then some 0
  else if t = "emoji" then some 1
  else if t = "animoji" then some 2
  else none

/-- Python truthiness of an optional string (absent or empty are falsy). -/
def truthyG (o : Option Chars) : Bool :=
  match o with
  | some l => !l.isEmpty
  | none => false

/-- `EntitiesParser._identify_entity_type`: scan `match.groups()` (0-based
index `idx` is group number `idx+1`) for the first truthy group whose index is
in `idx_map`; the associated URL is group `idx+2` for the types with a depth
entry, and the depth is 1 plus that entry. -/
def identifyEntityType (m : MatchInfo) : Option String × Option Chars × Nat :=
  match (List.range 26).find? (fun idx => truthyG (gget m.groups (idx + 1)) && idxMap.contains idx) with
  | none => (none, none, 1)
  | some idx =>
    match messageType idx with
    | none => (none, none, 1)
    | some t =>
      match entityDepth t with
      | some d => (some t, gget m.groups (idx + 2), 1 + d)
      | none => (some t, none, 1)

/-- Python `parts[-depth]` (matched entities always have at least `depth`
separators, so the `IndexError` case is represented by the default). -/
def pyGetNeg (l : List Chars) (d : Nat) : Chars := l.getD (l.length - d) []

/-- `EntitiesParser.extract_content`:
`match.group().strip("<>").split(">")[-depth].split("<")[0]`. -/
def extractContent (m : MatchInfo) (depth : Nat) : Chars :=
  let t := stripSet ['<', '>'] m.text
  let parts := List.splitOn '>' t
  ((List.splitOn '<' (pyGetNeg parts depth)).headD [])

/-- `EntitiesParser._process_entity_match`, additionally returning the span
content the entity was built from (the same `extract_content` value used for
both the offset search and the length). -/
def processEntityMatch (textOnly : Chars) (m : MatchInfo) (offset : Int) :
    Option (Entity × Chars) × Int :=
  match identifyEntityType m with
  | (none, _, _) => (none, offset)
  | (some t, urlG, depth) =>
    let content := extractContent m depth
    let ts := pyFind textOnly content offset
    let newOff := ts + (content.length : Int)
    let url : Option Chars :=
      if truthyG urlG then
        match urlG with
        | some u => some (if t = "emoji" || t = "animoji" then "https:".data ++ u else u)
        | none => none
      else none
    (some ({ offset := ts, length := content.length, etype := t, url := url }, content), newOff)

/-- The accumulation loop of `EntitiesParser.parse_message`: skipped matches
leave the cursor unchanged, accepted ones advance it to their end offset. -/
def parseLoopA (textOnly : Chars) : List MatchInfo → Int → List (Entity × Chars)
  | [], _ => []
  | m :: ms, off =>
    match processEntityMatch textOnly m off with
    | (some ec, newOff) => ec :: parseLoopA textOnly ms newOff
    | (none, _) => parseLoopA textOnly ms off

/-- `EntitiesParser.parse_message`, annotated with each entity's span content. -/
def parse_message_annotated (body : Chars) : List (Entity × Chars) :=
  parseLoopA (textOnlyOf body) (findIter combinedRe (htmlTextOf body)) 0

/-- `EntitiesParser.parse_message`. -/
def parse_message (body : Chars) : List Entity :=
  (parse_message_annotated body).map Prod.fst

/-! ### A DOM model for the selectolax/Lexbor tree

`post.py` walks a parsed HTML tree through a small set of CSS queries
(single class, `tag.class`, bare tag, comma alternatives and one-level child
combinators), plus `attributes`, `text()`, `last_child`, `html` and
`unwrap_tags`.  The tree is modelled explicitly; queries traverse the subtree
of a node in document (pre-)order, the node itself included, as Lexbor's
selector engine does. -/

inductive HNode where
  | elem (tag : String) (attrs : List (String × String)) (children : List HNode)
  | txt (s : String)
deriving Repr

def HNode.attrsOf : HNode → List (String × String)
  | .elem _ a _ => a
  | .txt _ => []

def HNode.childrenOf : HNode → List HNode
  | .elem _ _ cs => cs
  | .txt _ => []

def HNode.tagOf : HNode → Option String
  | .elem t _ _ => some t
  | .txt _ => none

/-- `node.attributes.get(k)`. -/
def attrGet (n : HNode) (k : String) : Option String := n.attrsOf.lookup k

/-- `node.attributes.get("class", "")`. -/
def classStr (n : HNode) : String := (attrGet n "class").getD ""

/-- Whitespace-separated words of a string (Python `str.split()`). -/
def splitWSAux : Chars → Chars → List String
  | [], acc => if acc.isEmpty then [] else [⟨acc.reverse⟩]
  | c :: rest, acc =>
    if spaceChar c then
      (if acc.isEmpty then splitWSAux rest [] else (⟨acc.reverse⟩ : String) :: splitWSAux rest [])
    else splitWSAux rest (c :: acc)

def wordsOf (s : String) : List String := splitWSAux s.data []

def hasClass (c : String) (n : HNode) : Bool := (wordsOf (classStr n)).contains c

def isTag (t : String) (n : HNode) : Bool := n.tagOf = some t

mutual
/-- All nodes of a subtree in document (pre-)order, the root included. -/
def allNodes : HNode → List HNode
  | .elem t a cs => .elem t a cs :: allNodesL cs
  | .txt s => [.txt s]
def allNodesL : List HNode → List HNode
  | [] => []
  | c :: cs => allNodes c ++ allNodesL cs
end

/-- `node.css(sel)` for a plain node predicate. -/
def cssAll (p : HNode → Bool) (root : HNode) : List HNode := (allNodes root).filter p

/-- `node.css_first(sel)`. -/
def cssFirst (p : HNode → Bool) (root : HNode) : Option HNode := (allNodes root).find? p

mutual
/-- All (parent, node) pairs of a subtree in document order of the node. -/
def nodesWP (p? : Option HNode) : HNode → List (Option HNode × HNode)
  | .elem t a cs => (p?, .elem t a cs) :: nodesWPL (some (.elem t a cs)) cs
  | .txt s => [(p?, .txt s)]
def nodesWPL (p? : Option HNode) : List HNode → List (Option HNode × HNode)
  | [] => []
  | c :: cs => nodesWP p? c ++ nodesWPL p? cs
end

/-- `node.css("P > C")`: nodes matching `cp` whose parent matches `pp`. -/
def cssChild (pp cp : HNode → Bool) (root : HNode) : List HNode :=
  ((nodesWP none root).filter (fun pc =>
    cp pc.2 && (match pc.1 with | some p => pp p | none => false))).map (·.2)

/-- `node.css_first("P > C")`. -/
def cssChildFirst (pp cp : HNode → Bool) (root : HNode) : Option HNode :=
  (cssChild pp cp root).head?

mutual
/-- `node.text()` (all descendant text, concatenated). -/
def textC : HNode → Chars
  | .elem _ _ cs => textCL cs
  | .txt s => s.data
def textCL : List HNode → Chars
  | [] => []
  | c :: cs => textC c ++ textCL cs
end

/-- `node.last_child` (element or text node). -/
def lastChild (n : HNode) : Option HNode := n.childrenOf.getLast?

def attrsHtml : List (String × String) → Chars
  | [] => []
  | (k, v) :: rest => ' ' :: k.data ++ '=' :: '"' :: v.data ++ '"' :: attrsHtml rest

mutual
/-- `node.html`: re-serialization of the subtree. -/
def htmlOf : HNode → Chars
  | .elem t a cs =>
    '<' :: t.data ++ attrsHtml a ++ '>' :: htmlOfL cs ++ '<' :: '/' :: t.data ++ ['>']
  | .txt s => s.data
def htmlOfL : List HNode → Chars
  | [] => []
  | c :: cs => htmlOf c ++ htmlOfL cs
end

mutual
/-- `node.unwrap_tags(tags)`: remove the listed wrapper elements, splicing
their children in place, throughout the subtree. -/
def unwrapN (tags : List String) : HNode → HNode
  | .elem t a cs => .elem t a (unwrapL tags cs)
  | .txt s => .txt s
def unwrapL (tags : List String) : List HNode → List HNode
  | [] => []
  | .elem t a cs :: rest =>
    if tags.contains t then unwrapL tags cs ++ unwrapL tags rest
    else .elem t a (unwrapL tags cs) :: unwrapL tags rest
  | .txt s :: rest => .txt s :: unwrapL tags rest
end

/-- `sub` occurs somewhere in `hay` (Python `in` on strings). -/
def occursSub (sub hay : Chars) : Bool :=
  (List.range (hay.length + 1)).any (occursAt hay sub ·)

/-- Python whitespace `str.strip()`. -/
def stripWS (l : Chars) : Chars := stripSet [' ', '\t', '\n', '\r', '\x0b', '\x0c'] l

/-- Exceptions raised by the embedded Python code. -/
inductive PyErr where
  | attributeError
  | indexError
  | valueError
  | typeError
deriving Repr, DecidableEq

/-! ### `Utils` helpers (`app/telegram/parser/methods/utils.py`) -/

/-- The pattern `rf"<{tag}.*?>(.*?)</{tag}>"` of `Utils.get_text_html`
(compiled with `re.M | re.S`). -/
def gthRe (tag : String) : RE :=
  reCat [reStr ("<" ++ tag), lazyStar reAnyC, reStr ">", .grp 1 (lazyStar reAnyC),
    reStr ("</" ++ tag ++ ">")]

/-- `Utils.get_text_html(selector, tag_name)`. -/
def getTextHtml (n : HNode) (tag : String) : Option Chars :=
  match reSearch (gthRe tag) (htmlOf n) with
  | some m => some ((gget m.groups 1).getD [])
  | none => none

/-- `background-image:\s*?url\([',\"](.*)[',\"]\)` with `re.I | re.M` (no
`re.S`, so `.` does not cross newlines). -/
def bgRe : RE :=
  reCat [reStrCI "background-image:", lazyStar (.ch spaceChar), reStrCI "url(",
    .ch (fun c => c = '\'' || c = ',' || c = '"'), .grp 1 (greedyStar (reNotC '\n')),
    .ch (fun c => c = '\'' || c = ',' || c = '"'), .ch (fun c => c = ')')]

/-- `Utils.background_extr(style)`. -/
def backgroundExtr (style : Chars) : Option Chars :=
  match reSearch bgRe style with
  | some m => some ((gget m.groups 1).getD [])
  | none => none

/-! ### Timestamps (`Post.__unix_timestamp`, `datetime.strptime`) -/

def isLeapYear (y : Int) : Bool :=
  y % 4 = 0 && (y % 100 ≠ 0 || y % 400 = 0)

def daysInMonth (y : Int) (m : Nat) : Nat :=
  if m = 2 then (if isLeapYear y then 29 else 28)
  else if m = 4 || m = 6 || m = 9 || m = 11 then 30 else 31

/-- Days since 1970-01-01 of a proleptic-Gregorian civil date (Hinnant's
`days_from_civil` algorithm). -/
def daysFromCivil (y : Int) (m d : Nat) : Int :=
  let y' : Int := y - (if m ≤ 2 then 1 else 0)
  let era : Int := (if y' < 0 then y' - 399 else y') / 400
  let yoe : Int := y' - era * 400
  let mp : Int := (m : Int) + (if m > 2 then -3 else 9)
  let doy : Int := (153 * mp + 2) / 5 + (d : Int) - 1
  let doe : Int := yoe * 365 + yoe / 4 - yoe / 100 + doy
  era * 146097 + doe - 719468

/-- Exactly `k` ASCII digits as a number. -/
def readDigits (l : Chars) (k : Nat) : Option Nat :=
  let ds := l.take k
  if ds.length = k && ds.all Char.isDigit then
    some (ds.foldl (fun acc c => acc * 10 + (c.toNat - '0'.toNat)) 0)
  else none

/-- The `%z` directive: `Z` or `±HH[:​]MM`; returns the offset in seconds. -/
def readTzOffset (l : Chars) : Option Int :=
  match l with
  | ['Z'] => some 0
  | c :: rest =>
    if c = '+' || c = '-' then
      let sign : Int := if c = '-' then -1 else 1
      match readDigits rest 2 with
      | none => none
      | some hh =>
        let rest2 := rest.drop 2
        let rest3 := if rest2.head? = some ':' then rest2.drop 1 else rest2
        match readDigits rest3 2 with
        | none => none
        | some mm =>
          if rest3.drop 2 = [] && hh ≤ 23 && mm ≤ 59 then
            some (sign * ((hh : Int) * 3600 + (mm : Int) * 60))
          else none
    else none
  | [] => none

/-- `datetime.strptime(ts, "%Y-%m-%dT%H:%M:%S%z").timestamp()` as an integer
number of seconds; a malformed input models the `ValueError`. -/
def strptimeTZ (l : Chars) : Except PyErr Int :=
  let parsed : Option Int := do
    let y ← readDigits l 4
    let l1 := l.drop 4
    if l1.head? ≠ some '-' then none else
    let mo ← readDigits (l1.drop 1) 2
    let l2 := l1.drop 3
    if l2.head? ≠ some '-' then none else
    let d ← readDigits (l2.drop 1) 2
    let l3 := l2.drop 3
    if l3.head? ≠ some 'T' then none else
    let h ← readDigits (l3.drop 1) 2
    let l4 := l3.drop 3
    if l4.head? ≠ some ':' then none else
    let mi ← readDigits (l4.drop 1) 2
    let l5 := l4.drop 3
    if l5.head? ≠ some ':' then none else
    let s ← readDigits (l5.drop 1) 2
    let l6 := l5.drop 3
    let off ← readTzOffset l6
    if 1 ≤ mo && mo ≤ 12 && 1 ≤ d && d ≤ daysInMonth (y : Int) mo &&
        h ≤ 23 && mi ≤ 59 && s ≤ 59 then
      some (daysFromCivil (y : Int) mo d * 86400 +
        (h : Int) * 3600 + (mi : Int) * 60 + (s : Int) - off)
    else none
  match parsed with
  | some v => .ok v
  | none => .error .valueError

/-! ### Hex and UTF-8 decoding (`Post._extract_emoji_from_style`) -/

def hexVal (c : Char) : Nat :=
  if '0' ≤ c ∧ c ≤ '9' then c.toNat - '0'.toNat
  else if 'A' ≤ c ∧ c ≤ 'F' then c.toNat - 'A'.toNat + 10
  else 0

/-- `bytes.fromhex` on an even-length string of hex digits. -/
def hexToBytes : Chars → List Nat
  | a :: b :: rest => (hexVal a * 16 + hexVal b) :: hexToBytes rest
  | _ => []

/-- Strict UTF-8 decoding (`bytes.decode("utf-8")`): rejects truncated
sequences, bad continuation bytes, overlong encodings, surrogates and
code points above `U+10FFFF`. -/
def utf8DecodeAux : List Nat → Chars → Option Chars
  | [], acc => some acc.reverse
  | b :: rest, acc =>
    if b < 0x80 then utf8DecodeAux rest (Char.ofNat b :: acc)
    else if b < 0xC2 then none
    else if b < 0xE0 then
      match rest with
      | c1 :: rest1 =>
        if 0x80 ≤ c1 && c1 < 0xC0 then
          utf8DecodeAux rest1 (Char.ofNat ((b - 0xC0) * 64 + (c1 - 0x80)) :: acc)
        else none
      | _ => none
    else if b < 0xF0 then
      match rest with
      | c1 :: c2 :: rest2 =>
        if 0x80 ≤ c1 && c1 < 0xC0 && 0x80 ≤ c2 && c2 < 0xC0 then
          let cp := (b - 0xE0) * 4096 + (c1 - 0x80) * 64 + (c2 - 0x80)
          if 0x800 ≤ cp && !(0xD800 ≤ cp && cp ≤ 0xDFFF) then
            utf8DecodeAux rest2 (Char.ofNat cp :: acc)
          else none
        else none
      | _ => none
    else if b < 0xF5 then
      match rest with
      | c1 :: c2 :: c3 :: rest3 =>
        if 0x80 ≤ c1 && c1 < 0xC0 && 0x80 ≤ c2 && c2 < 0xC0 && 0x80 ≤ c3 && c3 < 0xC0 then
          let cp := (b - 0xF0) * 262144 + (c1 - 0x80) * 4096 + (c2 - 0x80) * 64 + (c3 - 0x80)
          if 0x10000 ≤ cp && cp ≤ 0x10FFFF then
            utf8DecodeAux rest3 (Char.ofNat cp :: acc)
          else none
        else none
      | _ => none
    else none

def utf8Decode (bs : List Nat) : Option Chars := utf8DecodeAux bs []

def upperChar (c : Char) : Char :=
  if 'a' ≤ c ∧ c ≤ 'z' then Char.ofNat (c.toNat - 32) else c

/-- `r'/([^/]+)\.png'`. -/
def pngRe : RE :=
  reCat [.ch (fun c => c = '/'), .grp 1 (greedyPlus (reNotC '/')), reStr ".png"]

/-- `Post._extract_emoji_from_style`: hex-decode the PNG file name segment of
the `background-image` style into UTF-8; `None` on any failure. -/
def extractEmojiFromStyle (emojiNode : HNode) : Option String :=
  let style := (attrGet emojiNode "style").getD ""
  if !occursSub "background-image".data style.data then none
  else
    match reSearch pngRe style.data with
    | none => none
    | some m =>
      let hexCode := ((gget m.groups 1).getD []).map upperChar
      let clean := hexCode.filter (fun c => "0123456789ABCDEF".data.contains c)
      let clean2 := if clean.length % 2 ≠ 0 then clean.dropLast else clean
      match utf8Decode (hexToBytes clean2) with
      | some cs => some (⟨cs⟩ : String)
      | none => none

/-! ### The post parser (`app/telegram/parser/types/post.py`) -/

/-- `{"string": ..., "html": ...}` pairs (`ParsedAndRaw`); the `html` value
comes from `Utils.get_text_html` and may be `None`. -/
structure PRDict where
  pstring : String
  phtml : Option Chars
deriving Repr, DecidableEq

/-- One reaction dictionary as built by `Post.__extract_single_reaction`. -/
structure RDict where
  count : String
  rtype : String
  emoji : Option String
  emoji_id : Option String
deriving Repr, DecidableEq

/-- `Post.__extract_single_reaction`. -/
def extractSingleReaction (n : HNode) : Except PyErr (Option RDict) :=
  match lastChild n with
  | none => .error PyErr.attributeError
  | some lc =>
    let count : String := ⟨textC lc⟩
    if occursSub "tgme_reaction_paid".data (classStr n).data then
      .ok (some
        { count := count, rtype := "telegram_stars", emoji := some "⭐", emoji_id := none })
    else
      match cssFirst (fun x => isTag "i" x && hasClass "emoji" x) n with
      | some img =>
        match cssFirst (fun x => isTag "b" x) img with
        | some bNode =>
          .ok (some
            { count := count, rtype := "emoji", emoji := some (⟨textC bNode⟩ : String),
              emoji_id := none })
        | none =>
          match extractEmojiFromStyle img with
          | some e =>
            if e = "" then .ok none
            else
              .ok (some
                { count := count, rtype := "emoji", emoji := some e, emoji_id := none })
          | none => .ok none
      | none =>
        match cssFirst (fun x => isTag "tg-emoji" x) n with
        | some tgNode =>
          .ok (some
            { count := count, rtype := "custom_emoji", emoji := none,
              emoji_id := attrGet tgNode "emoji-id" })
        | none => .ok none

def collectReactions : List HNode → Except PyErr (List RDict)
  | [] => .ok []
  | n :: ns =>
    match extractSingleReaction n with
    | .error e => .error e
    | .ok r? =>
      match collectReactions ns with
      | .error e => .error e
      | .ok rest => .ok (match r? with | some r => r :: rest | none => rest)

/-- `Post.reactions`. -/
def reactionsOf (message : HNode) : Except PyErr (Option (List RDict)) :=
  match cssFirst (hasClass "tgme_widget_message_reactions") message with
  | none => .ok none
  | some rn =>
    match collectReactions (cssAll (hasClass "tgme_reaction") rn) with
    | .error e => .error e
    | .ok rs => .ok (if rs.isEmpty then none else some rs)

/-- `Post.author`. -/
def authorOf (message : HNode) : Option PRDict :=
  match cssFirst (hasClass "tgme_widget_message_from_author") message with
  | none => none
  | some auth => some { pstring := ⟨textC auth⟩, phtml := getTextHtml auth "span" }

structure DateDict where
  dstring : String
  unix : Int
deriving Repr, DecidableEq

structure FooterDict where
  views : Option String
  edited : Bool
  author : Option PRDict
  date : DateDict
deriving Repr, DecidableEq

/-- Whether the first characters of `l` are `pre` (Python `str.startswith`). -/
def startsWithC (pre l : Chars) : Bool := decide (l.take pre.length = pre)

/-- `Post.footer`.  A missing `.tgme_widget_message_date > time` node or
`.tgme_widget_message_meta` node raises `AttributeError`; a missing
`datetime` attribute makes `strptime` raise `TypeError`; an unparsable
timestamp raises `ValueError` (in source evaluation order). -/
def footerOf (buble : HNode) : Except PyErr FooterDict :=
  match cssChildFirst (hasClass "tgme_widget_message_date") (isTag "time") buble with
  | none => .error PyErr.attributeError
  | some timeNode =>
    let dt? := attrGet timeNode "datetime"
    let views := (cssFirst (hasClass "tgme_widget_message_views") buble).map
      (fun v => (⟨textC v⟩ : String))
    match cssFirst (hasClass "tgme_widget_message_meta") buble with
    | none => .error PyErr.attributeError
    | some metaNode =>
      let edited := startsWithC "edited".data (textC metaNode)
      let author := authorOf buble
      match dt? with
      | none => .error PyErr.typeError
      | some dt =>
        match strptimeTZ dt.data with
        | .error e => .error e
        | .ok unix =>
          .ok
            { views := views, edited := edited, author := author,
              date := { dstring := dt, unix := unix } }

structure PollOptionD where
  oname : String
  percent : Int
deriving Repr, DecidableEq

structure PollDict where
  question : Option String
  ptype : Option String
  votes : String
  options : List PollOptionD
deriving Repr, DecidableEq

/-- The guarded list comprehension of `Post.__extract_poll_options`;
`int(percent_text[:-1])` raises `ValueError` when non-numeric. -/
def pollOptionsOf : List HNode → Except PyErr (List PollOptionD)
  | [] => .ok []
  | o :: os =>
    match pollOptionsOf os with
    | .error e => .error e
    | .ok rest =>
      match cssFirst (hasClass "tgme_widget_message_poll_option_text") o,
          cssFirst (hasClass "tgme_widget_message_poll_option_percent") o with
      | some tNode, some pNode =>
        match pyIntOfChars (textC pNode).dropLast with
        | some v => .ok ({ oname := ⟨textC tNode⟩, percent := v } :: rest)
        | none => .error PyErr.valueError
      | _, _ => .ok rest

/-- `Post.poll`; a poll without a `.tgme_widget_message_voters` node raises
`AttributeError`. -/
def pollOf (buble : HNode) : Except PyErr (Option PollDict) :=
  match cssFirst (hasClass "tgme_widget_message_poll") buble with
  | none => .ok none
  | some poll =>
    let question := (cssFirst (hasClass "tgme_widget_message_poll_question") poll).map
      (fun q => (⟨textC q⟩ : String))
    let ptype := (cssFirst (hasClass "tgme_widget_message_poll_type") poll).map
      (fun t => (⟨textC t⟩ : String))
    match cssFirst (hasClass "tgme_widget_message_voters") buble with
    | none => .error PyErr.attributeError
    | some v =>
      match pollOptionsOf (cssAll (hasClass "tgme_widget_message_poll_option") poll) with
      | .error e => .error e
      | .ok options =>
        .ok (some
          { question := question, ptype := ptype, votes := (⟨textC v⟩ : String),
            options := options })

structure InlineD where
  title : String
  url : Option String
deriving Repr, DecidableEq

def inlineItems : List HNode → Except PyErr (List InlineD)
  | [] => .ok []
  | b :: bs =>
    match cssFirst (isTag "span") b with
    | none => .error PyErr.attributeError
    | some span =>
      match inlineItems bs with
      | .error e => .error e
      | .ok rest => .ok ({ title := ⟨textC span⟩, url := attrGet b "href" } :: rest)

/-- `Post.inline`. -/
def inlineOf (message : HNode) : Except PyErr (Option (List InlineD)) :=
  match cssFirst (hasClass "tgme_widget_message_inline_row") message with
  | none => .ok none
  | some row =>
    match inlineItems (cssAll (hasClass "tgme_widget_message_inline_button") row) with
    | .error e => .error e
    | .ok items => .ok (some items)

structure ReplyD where
  cover : Option Chars
  rname : PRDict
  rtext : PRDict
  to_message : Int
deriving Repr, DecidableEq

/-- `https://t\.me/[\w-]+/(\d+)` (reply target extraction). -/
def replyIdRe : RE :=
  reCat [reStr "https://t.me/", greedyPlus (.ch (fun c => wordChar c || c = '-')),
    reStr "/", .grp 1 (greedyPlus (.ch Char.isDigit))]

/-- `Post.reply`.  A reply with text but no author node, or whose `href` is
missing (`re.search` on `None`) or does not match the pattern
(`None.group(1)`), raises. -/
def replyCover : Option HNode → Except PyErr (Option Chars)
  | none => .ok none
  | some c =>
    match attrGet c "style" with
    | some st => .ok (backgroundExtr st.data)
    | none => .error PyErr.typeError

def replyOf (message : HNode) : Except PyErr (Option ReplyD) :=
  match cssFirst (hasClass "tgme_widget_message_reply") message with
  | none => .ok none
  | some reply =>
    let cover? := cssFirst (hasClass "tgme_widget_message_reply_thumb") reply
    let name? := cssFirst (hasClass "tgme_widget_message_author") reply
    let text? := cssFirst (fun n =>
      hasClass "tgme_widget_message_metatext" n || hasClass "tgme_widget_message_text" n) reply
    match text? with
    | none => .ok none
    | some tNode =>
      match replyCover cover? with
      | .error e => .error e
      | .ok cover =>
        match name? with
        | none => .error PyErr.attributeError
        | some nameNode =>
          match attrGet reply "href" with
          | none => .error PyErr.typeError
          | some href =>
            match reSearch replyIdRe href.data with
            | none => .error PyErr.attributeError
            | some idm =>
              match pyIntOfChars ((gget idm.groups 1).getD []) with
              | none => .error PyErr.valueError
              | some toMsg =>
                .ok (some
                  { cover := cover,
                    rname := { pstring := ⟨stripWS (textC nameNode)⟩,
                               phtml := getTextHtml nameNode "span" },
                    rtext := { pstring := ⟨textC tNode⟩, phtml := getTextHtml tNode "div" },
                    to_message := toMsg })

structure PrevD where
  site_name : Option String
  url : Option String
  title : Option String
  description : Option PRDict
  thumb : Option Chars
deriving Repr, DecidableEq

/-- `node.text(strip=True)` (whitespace-stripped text). -/
def textStripped (n : HNode) : String := ⟨stripWS (textC n)⟩

/-- `Post.preview_link` (total: every sub-extraction is guarded). -/
def previewLinkOf (node : HNode) : Option PrevD :=
  match cssFirst (hasClass "tgme_widget_message_link_preview") node with
  | none => none
  | some preview =>
    let thumbNode := cssChildFirst (hasClass "tgme_widget_message_link_preview")
      (hasClass "link_preview_right_image") preview
    let thumb := match thumbNode with
      | some tn =>
        match attrGet tn "style" with
        | some st => if st = "" then none else backgroundExtr st.data
        | none => none
      | none => none
    some { site_name := (cssFirst (hasClass "link_preview_site_name") preview).map textStripped
         , url := attrGet preview "href"
         , title := (cssFirst (hasClass "link_preview_title") preview).map textStripped
         , description := (cssFirst (hasClass "link_preview_description") preview).map
             (fun d => { pstring := ⟨textC d⟩, phtml := getTextHtml d "div" })
         , thumb := thumb }

/-! #### `Post.text` -/

structure TextD where
  tstring : Chars
  thtml : Chars
  entities : Option (List Entity)
deriving Repr, DecidableEq

/-- The tags unwrapped before computing the plain string. -/
def deleteTags : List String :=
  ["a", "i", "b", "s", "u", "pre", "code", "span", "tg-emoji", "tg-spoiler"]

/-- `<div\s+class="tgme_widget_message_text(?:[^"]*)"(?:\s+[^>]*?)?>(.*?)(?:</div>|$)`
with `re.DOTALL`. -/
def divTextRe : RE :=
  reCat [reStr "<div", greedyPlus (.ch spaceChar), reStr "class=\"tgme_widget_message_text",
    greedyStar (reNotC '"'), reStr "\"",
    optGreedy (reCat [greedyPlus (.ch spaceChar), lazyStar (reNotC '>')]),
    reStr ">", .grp 1 (lazyStar reAnyC), .alt (reStr "</div>") .eos]

/-- `Post.__clean_html_text`. -/
def cleanHtmlText (html : Chars) : Chars :=
  let t := reSubAll brRe ['\n'] html
  let t2 := match reSearch divTextRe t with
    | some m => (gget m.groups 1).getD []
    | none => t
  replaceSub "&nbsp;".data " ".data t2

/-- `Post.text`: `get_text_html` returning `None` feeds `None` into `re.sub`,
a `TypeError`. -/
def postTextOf (buble : HNode) : Except PyErr (Option TextD) :=
  match cssFirst (fun n => hasClass "tgme_widget_message_text" n || hasClass "js-message_text" n)
      buble with
  | none => .ok none
  | some sel =>
    match getTextHtml sel "div" with
    | none => .error PyErr.typeError
    | some content =>
      match getTextHtml (unwrapN deleteTags sel) "div" with
      | none => .error PyErr.typeError
      | some contentT =>
        let ents := parse_message content
        .ok (some
          { tstring := cleanHtmlText contentT, thtml := content,
            entities := if ents.isEmpty then none else some ents })

/-! #### The media parser (`app/telegram/parser/types/media.py`) -/

structure DurD where
  formatted : String
  raw : Option Int
deriving Repr, DecidableEq

structure MediaD where
  url : Option String
  thumb : Option Chars
  waves : Option String
  duration : Option DurD
  mtype : String
  available : Option Bool
deriving Repr, DecidableEq

/-- `Media.__duration`: `MM:SS` or `HH:MM:SS` to seconds, `None` otherwise. -/
def durSeconds (d : Chars) : Option Int :=
  if d.isEmpty then none
  else
    let parts := (List.splitOn ':' d).map pyIntOfChars
    if parts.any Option.isNone then none
    else
      match parts with
      | [some m, some s] => some (m * 60 + s)
      | [some h, some m, some s] => some (h * 3600 + m * 60 + s)
      | _ => none

/-- `Media._parse_duration`. -/
def parseDur (txt : Option String) : Option DurD :=
  match txt with
  | none => none
  | some t => if t = "" then none else some { formatted := t, raw := durSeconds t.data }

/-- Python truthiness of an optional attribute string. -/
def truthyS (o : Option String) : Bool :=
  match o with
  | some s => s ≠ ""
  | none => false

/-- `Media.image`. -/
def mediaImage (m : HNode) : Option MediaD :=
  match attrGet m "style" with
  | none => none
  | some st =>
    if st = "" then none
    else
      some
        { url := (backgroundExtr st.data).map (fun l => (⟨l⟩ : String)), thumb := none,
          waves := none, duration := none, mtype := "image", available := none }

/-- `Media.video`; a thumb node without a `style` attribute feeds `None` into
`background_extr` (`TypeError`). -/
def videoThumb : Option HNode → Except PyErr (Option Chars)
  | none => .ok none
  | some tn =>
    match attrGet tn "style" with
    | some st => .ok (backgroundExtr st.data)
    | none => .error PyErr.typeError

def mediaVideo (m : HNode) : Except PyErr (Option MediaD) :=
  let thumbN := cssFirst (hasClass "tgme_widget_message_video_thumb") m
  let durN := cssFirst (fun n => isTag "time" n && hasClass "message_video_duration" n) m
  let vidN := cssFirst (fun n => isTag "video" n && hasClass "tgme_widget_message_video" n) m
  let avail := match vidN with
    | some v => truthyS (attrGet v "src")
    | none => false
  let url := match vidN with
    | some v => if avail then attrGet v "src" else none
    | none => none
  match videoThumb thumbN with
  | .error e => .error e
  | .ok thumb =>
    .ok (some (match durN with
      | some dn =>
        { url := url, thumb := thumb, waves := none,
          duration := parseDur (some (⟨textC dn⟩ : String)),
          mtype := "video", available := if avail then none else some false }
      | none =>
        { url := url, thumb := thumb, waves := none, duration := none,
          mtype := "gif", available := if avail then none else some false }))

/-- `Media.voice`. -/
def mediaVoice (m : HNode) : Option MediaD :=
  match cssFirst (hasClass "tgme_widget_message_voice") m with
  | none => none
  | some audio =>
    let durN := cssFirst (fun n =>
      isTag "time" n && hasClass "tgme_widget_message_voice_duration" n) m
    some
      { url := attrGet audio "src", thumb := none, waves := attrGet audio "data-waveform",
        duration := parseDur (durN.map (fun n => (⟨textC n⟩ : String))), mtype := "voice",
        available := none }

/-- `Media._extract_thumbnail`. -/
def extractThumbnail (node : HNode) (p : HNode → Bool) : Option Chars :=
  match cssFirst p node with
  | none => none
  | some tn =>
    match attrGet tn "style" with
    | some st => if st = "" then none else backgroundExtr st.data
    | none => none

/-- `Media.roundvideo`. -/
def mediaRoundvideo (m : HNode) : Option MediaD :=
  match cssFirst (fun n => isTag "video" n && hasClass "tgme_widget_message_roundvideo" n) m with
  | none => none
  | some rv =>
    let durN := cssFirst (fun n =>
      isTag "time" n && hasClass "tgme_widget_message_roundvideo_duration" n) m
    some
      { url := attrGet rv "src",
        thumb := extractThumbnail m (hasClass "tgme_widget_message_roundvideo_thumb"),
        waves := none,
        duration := parseDur (durN.map (fun n => (⟨textC n⟩ : String))),
        mtype := "roundvideo", available := none }

/-- The three sticker shapes of `Media._get_sticker_classes`, tried in order,
paired with the attribute of `Media._get_sticker_key_map`. -/
def stickerShapes : List ((HNode → Bool) × (HNode → Bool) × String) :=
  [ (fun n => isTag "picture" n && hasClass "tgme_widget_message_tgsticker" n,
      fun n => isTag "source" n, "srcset")
  , (fun n => isTag "i" n && hasClass "tgme_widget_message_sticker" n,
      fun n => isTag "i" n && hasClass "tgme_widget_message_sticker" n, "data-webp")
  , (fun n => isTag "div" n && hasClass "tgme_widget_message_videosticker" n,
      fun n => isTag "video" n && hasClass "js-videosticker_video" n, "src") ]

def findStickerElement (m : HNode) :
    List ((HNode → Bool) × (HNode → Bool) × String) → Option (HNode × (HNode → Bool) × String)
  | [] => none
  | (cls, srcSel, key) :: rest =>
    match cssFirst cls m with
    | some st => some (st, srcSel, key)
    | none => findStickerElement m rest

/-- `Media.sticker`. -/
def mediaSticker (m : HNode) : Option MediaD :=
  match findStickerElement m stickerShapes with
  | none => none
  | some (st, srcSel, key) =>
    match cssFirst srcSel st with
    | none => none
    | some source =>
      let thumb := cssFirst (isTag "img") source
      some
        { url := attrGet source key,
          thumb := (thumb.bind (fun t => attrGet t "src")).map String.data,
          waves := none, duration := none, mtype := "sticker", available := none }

def mediaClassNames : List String :=
  ["link_preview_image", "tgme_widget_message_photo_wrap", "tgme_widget_message_video_player",
   "tgme_widget_message_voice_player", "tgme_widget_message_roundvideo_player",
   "tgme_widget_message_sticker_wrap"]

/-- `Media._CONTENT_TYPE_MAP`. -/
def contentTypeOf (cls : String) : Option String :=
  [("link_preview_image", "image"), ("tgme_widget_message_photo_wrap", "image"),
   ("tgme_widget_message_video_player", "video"), ("tgme_widget_message_voice_player", "voice"),
   ("tgme_widget_message_roundvideo_player", "roundvideo"),
   ("tgme_widget_message_sticker_wrap", "sticker")].lookup cls

/-- `Media._process_media_element` (`class.split()[0]` on an empty class list
raises `IndexError`; unreachable for nodes matched by a class selector). -/
def processMediaElement (el : HNode) : Except PyErr (Option MediaD) :=
  match (wordsOf (classStr el)).head? with
  | none => .error PyErr.indexError
  | some clsName =>
    match contentTypeOf clsName with
    | none => .ok none
    | some ct =>
      if ct = "image" then .ok (mediaImage el)
      else if ct = "video" then mediaVideo el
      else if ct = "voice" then .ok (mediaVoice el)
      else if ct = "roundvideo" then .ok (mediaRoundvideo el)
      else if ct = "sticker" then .ok (mediaSticker el)
      else .ok none

def extractMediaLoop : List HNode → Except PyErr (List MediaD)
  | [] => .ok []
  | el :: els =>
    match processMediaElement el with
    | .error e => .error e
    | .ok m? =>
      match extractMediaLoop els with
      | .error e => .error e
      | .ok rest => .ok (match m? with | some m => m :: rest | none => rest)

/-- `Media(group).extract_media()`. -/
def extractMedia (group : HNode) : Except PyErr (List MediaD) :=
  extractMediaLoop (cssAll (fun n => mediaClassNames.any (fun c => hasClass c n)) group)

/-! #### Content assembly and `Post.get` -/

/-- The merged content map of `Post.__parse_content_fields`: a field is
present exactly when its extractor's result is truthy (`{k: v ... if v}`). -/
structure ContentMap where
  text : Option TextD
  media : Option (List MediaD)
  poll : Option PollDict
  inline : Option (List InlineD)
  reply : Option ReplyD
  preview_link : Option PrevD
  reacts : Option (List RDict)
deriving Repr, DecidableEq

def ContentMap.isEmptyC (c : ContentMap) : Bool :=
  c.text.isNone && c.media.isNone && c.poll.isNone && c.inline.isNone &&
    c.reply.isNone && c.preview_link.isNone && c.reacts.isNone

/-- `Post.__parse_content_fields` (extractors run in source dictionary
order; falsy values — `None`, empty lists — are dropped from the map). -/
def parseContentFields (buble message : HNode) : Except PyErr ContentMap :=
  match postTextOf buble with
  | .error e => .error e
  | .ok t =>
    match extractMedia buble with
    | .error e => .error e
    | .ok m =>
      match pollOf buble with
      | .error e => .error e
      | .ok p =>
        match inlineOf message with
        | .error e => .error e
        | .ok i =>
          match replyOf message with
          | .error e => .error e
          | .ok r =>
            match reactionsOf message with
            | .error e => .error e
            | .ok rc =>
              .ok { text := t
                  , media := if m.isEmpty then none else some m
                  , poll := p
                  , inline := match i with
                      | some l => if l.isEmpty then none else some l
                      | none => none
                  , reply := r
                  , preview_link := previewLinkOf message
                  , reacts := rc }

structure FwdD where
  fname : PRDict
  url : Option String
deriving Repr, DecidableEq

/-- `Post.forwarded`. -/
def forwardedOf (message : HNode) : Option FwdD :=
  match cssFirst (hasClass "tgme_widget_message_forwarded_from_name") message with
  | none => none
  | some f =>
    some
      { fname := { pstring := ⟨textC f⟩, phtml := getTextHtml f "span" },
        url := attrGet f "href" }

structure PostD where
  id : Int
  content : ContentMap
  footer : FooterDict
  view : Option String
  forwarded : Option FwdD
deriving Repr, DecidableEq

/-- `Post.post_id`: `int(message.attributes.get("data-post").split("/")[1])`. -/
def postIdOf (message : HNode) : Except PyErr Int :=
  match attrGet message "data-post" with
  | none => .error PyErr.attributeError
  | some dp =>
    match (List.splitOn '/' dp.data).get? 1 with
    | none => .error PyErr.indexError
    | some second =>
      match pyIntOfChars second with
      | some v => .ok v
      | none => .error PyErr.valueError

/-- `Post.__check_selector`. -/
def checkSelector (identifier : Int) : Option Int → Bool
  | none => true
  | some s => decide (identifier = s)

/-- `Post.__build_post_object` (the bubble was already found by `get`; a
missing bubble raised earlier, inside the content extraction). -/
def buildPostObject (message buble : HNode) (content : ContentMap) : Except PyErr PostD :=
  match postIdOf message with
  | .error e => .error e
  | .ok pid =>
    match footerOf buble with
    | .error e => .error e
    | .ok f =>
      .ok
        { id := pid, content := content, footer := f,
          view := attrGet message "data-view", forwarded := forwardedOf message }

/-- `Post.messages`: `.tgme_widget_message_wrap > .tgme_widget_message`. -/
def messagesOf (doc : HNode) : List HNode :=
  cssChild (hasClass "tgme_widget_message_wrap") (hasClass "tgme_widget_message") doc

def postGetLoop (sel : Option Int) : List HNode → Except PyErr (List PostD)
  | [] => .ok []
  | m :: ms =>
    match postIdOf m with
    | .error e => .error e
    | .ok identifier =>
      if checkSelector identifier sel then
        match cssFirst (hasClass "tgme_widget_message_bubble") m with
        | none => .error PyErr.attributeError
        | some buble =>
          match parseContentFields buble m with
          | .error e => .error e
          | .ok content =>
            match buildPostObject m buble content with
            | .error e => .error e
            | .ok post =>
              match postGetLoop sel ms with
              | .error e => .error e
              | .ok rest => .ok (post :: rest)
      else postGetLoop sel ms

/-- `Post.get`. -/
def postGet (doc : HNode) (sel : Option Int) : Except PyErr (List PostD) :=
  postGetLoop sel (messagesOf doc)

/-- The number of messages passing the selector check (with the same
exception behaviour as the identifier extraction of `Post.get`). -/
def selectedCount (sel : Option Int) : List HNode → Except PyErr Nat
  | [] => .ok 0
  | m :: ms =>
    match postIdOf m with
    | .error e => .error e
    | .ok identifier =>
      match selectedCount sel ms with
      | .error e => .error e
      | .ok rest => .ok (if checkSelector identifier sel then rest + 1 else rest)

/-! ### `Parser.get_offset` (`app/telegram/parser/parser.py`) and
`Telegram.more` (`app/telegram/telegram.py`) -/

/-- Modelled from the spec: `app/telegram/parser/misc.py` (`Misc.set_int`) is
absent from `src/`; per §4.5 the offset map carries pagination positions as
integers parsed from the anchors' query values. -/
def setInt (s : String) : Int := (pyIntOfChars s.data).getD 0

/-- `Parser.query(url)`: the query string of the URL parsed into at most one
`{key: int}` pair (the source keeps only the first parameter). -/
def queryOf (url : Chars) : List (String × Int) :=
  let afterQ := ((url.dropWhile (· ≠ '?')).drop 1).takeWhile (· ≠ '#')
  let pairs := (List.splitOn '&' afterQ).filterMap (fun p =>
    match List.splitOn '=' p with
    | k :: v :: _ => if k.isEmpty then none else some ((⟨k⟩ : String), setInt ⟨v⟩)
    | _ => none)
  match pairs with
  | [] => []
  | p :: _ => [p]

/-- `Parser._is_relevant_link`. -/
def isRelevantLink (link : HNode) : Bool :=
  (match attrGet link "rel" with
   | some r => r = "prev" || r = "next"
   | none => false) ||
  (attrGet link "data-before").isSome || (attrGet link "data-after").isSome

/-- Python dictionary assignment `d[k] = v`: overwrite in place when the key
exists, append otherwise (insertion order preserved). -/
def setAssoc {α : Type} : List (String × α) → String → α → List (String × α)
  | [], k, v => [(k, v)]
  | (k', v') :: rest, k, v =>
    if k' = k then (k, v) :: rest else (k', v') :: setAssoc rest k v

/-- `Parser._extract_offset_values`. -/
def extractOffsetValues (links : List HNode) : List (String × Int) :=
  links.foldl (fun keys link =>
    if isRelevantLink link then
      (queryOf ((attrGet link "href").getD "").data).foldl
        (fun ks kv => setAssoc ks kv.1 kv.2) keys
    else keys) []

structure MoreResult where
  posts : List PostD
  offset : List (String × Int)
deriving Repr

/-- Modelled from the spec: `app/telegram/parser/methods/more.py` is absent
from `src/` (only its import in `telegram.py` remains).  Per §4.5, `More.get()`
builds `{posts, meta.offset}` from an incremental fragment: the posts via the
`Post` parser over the fragment's message nodes, the offsets from the
`<a data-before>/<a data-after>` anchors (`Parser.get_offset` with
`more=True`). -/
def moreGet (doc : HNode) : Except PyErr MoreResult :=
  match postGet doc none with
  | .error e => .error e
  | .ok posts =>
    .ok { posts := posts,
          offset := extractOffsetValues
            (cssAll (fun n => isTag "a" n && hasClass "tme_messages_more" n) doc) }

/-- `Telegram.more`.  `response` is the raw fetch result (`none` signals a
failed fetch), `parse` stands for the Lexbor HTML parser turning raw HTML
into a DOM tree.  The empty-string response is parsed and returned without
the boundary filter (the source's early-return branch); a failed fetch
yields the empty map (`none`); any other response is parsed and every post
whose id equals the pivot `position` is filtered out. -/
def telegramMore (parse : String → HNode) (response : Option String) (position : Int) :
    Except PyErr (Option MoreResult) :=
  match response with
  | none => .ok none
  | some s =>
    if s = "" then
      match moreGet (parse s) with
      | .error e => .error e
      | .ok r => .ok (some r)
    else
      match moreGet (parse s) with
      | .error e => .error e
      | .ok r => .ok (some { r with posts := r.posts.filter (fun p => p.id ≠ position) })

/-! ### The feed engine (`app/utils/feed.py`)

Float arithmetic is embedded as exact rational arithmetic over `ℚ`;
`math.exp` is abstracted as an explicit function parameter `expf`;
`datetime` values are epoch seconds in `ℚ` (timezone-aware, naive values
being interpreted as UTC exactly as the source's `replace(tzinfo=utc)`
does). -/

/-- Value of an ASCII digit string. -/
def digitsVal (l : Chars) : Nat :=
  l.foldl (fun acc c => acc * 10 + (c.toNat - '0'.toNat)) 0

/-- Python `int(float)` truncation toward zero for a rational. -/
def ratTrunc (q : ℚ) : Int := q.num / q.den

/-- Python `float(str)` restricted to plain decimal notation
(`[±]digits[.digits]`), the shape numeric strings in the scraped markup
take; everything else is a `ValueError` (`none`). -/
def parseFloatQ (l : Chars) : Option ℚ :=
  let signed : ℚ × Chars :=
    match l with
    | '-' :: r => (-1, r)
    | '+' :: r => (1, r)
    | r => (1, r)
  let sgn := signed.1
  let rest := signed.2
  let ip := rest.takeWhile Char.isDigit
  let rest2 := rest.drop ip.length
  match rest2 with
  | [] => if ip.isEmpty then none else some (sgn * (digitsVal ip : ℚ))
  | '.' :: fp' =>
    let fp := fp'.takeWhile Char.isDigit
    if !(fp'.drop fp.length).isEmpty then none
    else if ip.isEmpty && fp.isEmpty then none
    else some (sgn * ((digitsVal ip : ℚ) + (digitsVal fp : ℚ) / ((10 : ℚ) ^ fp.length)))
  | _ => none

/-- `PostDataPreparer.parse_numeric_value`: tolerant numeric parsing with
`k`/`m` suffixes, falling back to the caller-supplied default. -/
def parse_numeric_value (value? : Option String) (dflt : Int) : Int :=
  match value? with
  | none => dflt
  | some v =>
    if v = "" then dflt
    else
      let cleaned := (v.data.filter (fun c => c ≠ ' ')).map lowerChar
      if !cleaned.isEmpty && cleaned.all Char.isDigit then (digitsVal cleaned : Int)
      else if cleaned.contains 'k' then
        match parseFloatQ (cleaned.filter (fun c => c ≠ 'k')) with
        | some q => ratTrunc (q * 1000)
        | none => dflt
      else if cleaned.contains 'm' then
        match parseFloatQ (cleaned.filter (fun c => c ≠ 'm')) with
        | some q => ratTrunc (q * 1000000)
        | none => dflt
      else
        match pyIntOfChars cleaned with
        | some n => n
        | none => dflt

/-- Simplified ISO-8601 parser standing for `datetime.fromisoformat`:
`YYYY-MM-DD[{T| }HH:MM:SS[±HH:MM|Z-rewritten]]`, the shapes produced by the
scraper; the result is epoch seconds (a missing offset — a naive datetime —
is interpreted as UTC, as `parse_datetime_fast` does). -/
def isoParse (l : Chars) : Option ℚ :=
  match readDigits l 4 with
  | none => none
  | some y =>
    let l1 := l.drop 4
    if l1.head? ≠ some '-' then none else
    match readDigits (l1.drop 1) 2 with
    | none => none
    | some mo =>
      let l2 := l1.drop 3
      if l2.head? ≠ some '-' then none else
      match readDigits (l2.drop 1) 2 with
      | none => none
      | some d =>
        if !(1 ≤ mo && mo ≤ 12 && 1 ≤ d && d ≤ daysInMonth (y : Int) mo) then none
        else
          let base : Int := daysFromCivil (y : Int) mo d * 86400
          match l2.drop 3 with
          | [] => some (base : ℚ)
          | sep :: l3 =>
            if sep ≠ 'T' && sep ≠ ' ' then none else
            match readDigits l3 2 with
            | none => none
            | some h =>
              let l4 := l3.drop 2
              if l4.head? ≠ some ':' then none else
              match readDigits (l4.drop 1) 2 with
              | none => none
              | some mi =>
                let l5 := l4.drop 3
                if l5.head? ≠ some ':' then none else
                match readDigits (l5.drop 1) 2 with
                | none => none
                | some s =>
                  if !(h ≤ 23 && mi ≤ 59 && s ≤ 59) then none
                  else
                    let t : Int := base + (h : Int) * 3600 + (mi : Int) * 60 + (s : Int)
                    match l5.drop 3 with
                    | [] => some (t : ℚ)
                    | tz =>
                      match readTzOffset tz with
                      | some off => some ((t - off : Int) : ℚ)
                      | none => none

/-- `PostDataPreparer.parse_datetime_fast`: the `Z` suffix is rewritten to
`+00:00` first; a parse failure yields the current time `now`. -/
def parse_datetime_fast (now : ℚ) (s : String) : ℚ :=
  match isoParse (replaceSub "Z".data "+00:00".data s.data) with
  | some t => t
  | none => now

/-- The content-signature dictionary of `parse_content_type_single`. -/
structure CSig where
  ctext : Chars
  photos : Nat
  videos : Nat
  gifs : Nat
  poll : Nat
deriving Repr, DecidableEq

/-- A media entry as the feed engine reads it (`media.get('type', '')`). -/
structure FMedia where
  ftype : String
deriving Repr, DecidableEq

/-- A reaction entry as the feed engine reads it
(`react.get('emoji', '')`, `react.get('count', '0')`). -/
structure FReact where
  emoji : Option String
  count : Option String
deriving Repr, DecidableEq

/-- A parsed post's content map as the feed engine reads it: the `text`
dictionary (whose `string` value is consumed; the dictionary itself is always
truthy when present), `media`, `poll` and `reacts`. -/
structure FContent where
  text : Option Chars
  media : List FMedia
  poll : Option Unit
  reacts : List FReact
deriving Repr, DecidableEq

/-- The media loop body of `parse_content_type_single`: `'image'` counts as a
photo, `'video'` as a video, `'sticker'` as a gif; every other type (the
parser's `'gif'`, `'voice'`, `'roundvideo'` included) is ignored, and nothing
ever increments `poll`. -/
def ctsStep (acc : CSig) (m : FMedia) : CSig :=
  if m.ftype = "image" then { acc with photos := acc.photos + 1 }
  else if m.ftype = "video" then { acc with videos := acc.videos + 1 }
  else if m.ftype = "sticker" then { acc with gifs := acc.gifs + 1 }
  else acc

/-- `PostDataPreparer.parse_content_type_single`. -/
def parse_content_type_single (content : FContent) : CSig :=
  let t := match content.text with
    | some s => s
    | none => []
  content.media.foldl ctsStep { ctext := t, photos := 0, videos := 0, gifs := 0, poll := 0 }

/-- `PostDataPreparer.parse_reactions_single`: emoji → count dictionary,
keeping only truthy emojis with positive parsed counts. -/
def parse_reactions_single (reacts : List FReact) : List (String × Int) :=
  reacts.foldl (fun acc r =>
    let emoji := r.emoji.getD ""
    if emoji ≠ "" then
      let count := parse_numeric_value (some (r.count.getD "0")) 0
      if count > 0 then setAssoc acc emoji count else acc
    else acc) []

/-- `feed.Post` after `__init__`: subscribers clamped to ≥ 1. -/
structure FPost where
  post_id : Int
  channel_name : String
  username : String
  published_at : ℚ
  views : Int
  content : CSig
  edited : Bool
  reactions : List (String × Int)
  subscribers : Int
  comments : Int
deriving Repr, DecidableEq

/-- `feed.Post.__init__` (`self.subscribers = max(subscribers, 1)`). -/
def mkFPost (post_id : Int) (channel_name username : String) (published_at : ℚ)
    (views : Int) (content : CSig) (edited : Bool) (reactions : List (String × Int))
    (subscribers : Int) (comments : Int) : FPost :=
  { post_id := post_id, channel_name := channel_name, username := username,
    published_at := published_at, views := views, content := content, edited := edited,
    reactions := reactions, subscribers := max subscribers 1, comments := comments }

/-- `feed.Post.POSITIVE_REACTIONS`. -/
def POSITIVE_REACTIONS : List String := ["👍", "❤", "❤️", "😂", "🔥", "💯", "👏", "🎉", "🥰"]

/-- `feed.Post.NEGATIVE_REACTIONS`. -/
def NEGATIVE_REACTIONS : List String := ["👎", "😡", "😢", "🤬", "🤡"]

/-- `self.reactions.get(r, 0)`. -/
def reactGet (rs : List (String × Int)) (k : String) : Int := (rs.lookup k).getD 0

/-- `feed.Post.engagement_score`. -/
def engagement_score (p : FPost) : ℚ :=
  let subscribers : ℚ := (p.subscribers : ℚ)
  let positive : Int := (POSITIVE_REACTIONS.map (reactGet p.reactions)).sum
  let negative : Int := (NEGATIVE_REACTIONS.map (reactGet p.reactions)).sum
  let reaction_pct : ℚ := ((positive - negative : Int) : ℚ) / subscribers
  let comments_pct : ℚ := (p.comments : ℚ) / subscribers
  let views_pct : ℚ := (p.views : ℚ) / subscribers
  (min views_pct 10 + min reaction_pct 1 + min comments_pct (1 / 2)) / 3

/-- The weight dictionary of `feed.Post.content_score`. -/
def contentWeights : List (String × ℚ) :=
  [("photos", 3 / 10), ("videos", 1 / 2), ("gifs", 1 / 5), ("poll", 3 / 10)]

/-- `self.content.get(key, 0)`. -/
def csigGet (c : CSig) (k : String) : Nat :=
  if k = "photos" then c.photos
  else if k = "videos" then c.videos
  else if k = "gifs" then c.gifs
  else if k = "poll" then c.poll
  else 0

/-- `feed.Post.content_score`. -/
def content_score (p : FPost) : ℚ :=
  let media_bonus : ℚ := contentWeights.foldl
    (fun acc kw => acc + ((min (csigGet p.content kw.1) 10 : Nat) : ℚ) * kw.2) 0
  let text_bonus : ℚ := min ((p.content.ctext.length : ℚ) / 500) 2 * (1 / 10)
  min (media_bonus + text_bonus) 3

/-- The decay curve of `feed.Post.freshness_score` as a function of the hours
since the post. -/
def freshness_hours (expf : ℚ → ℚ) (hours : ℚ) : ℚ :=
  if hours ≤ 24 then 1 - (1 / 5) * (hours / 24)
  else if hours ≤ 168 then (4 / 5) * expf (-(4 / 5) * (hours / 24 - 1))
  else max (1 / 1000) ((1 / 10) * expf (-2 * (hours / 168 - 1)))

/-- `feed.Post.freshness_score`. -/
def freshness_score (expf : ℚ → ℚ) (p : FPost) (current : ℚ) : ℚ :=
  freshness_hours expf ((current - p.published_at) / 3600)

/-- The default weight dictionary of `feed.Post.score`. -/
def scoreWeights : List (String × ℚ) :=
  [("engagement", 2 / 5), ("content", 1 / 5), ("freshness", 2 / 5), ("edited", 1 / 50)]

def wGet (k : String) : ℚ := (scoreWeights.lookup k).getD 0

/-- `feed.Post.score` with the default weights (a fresh `Post` has no cached
score, so the first call always computes; the 60-second cache only replays
this value). -/
def score (expf : ℚ → ℚ) (p : FPost) (current : ℚ) : ℚ :=
  let engagement := engagement_score p
  let content := content_score p
  let freshness := freshness_score expf p current
  let edited_bonus := if p.edited then wGet "edited" else 0
  let base_score := wGet "engagement" * engagement + wGet "content" * content + edited_bonus
  min (base_score * (freshness + 1 / 10)) 10

/-! #### Channel fan-out (`fetch_channel_data_batch`,
`prepare_multiple_channels`) -/

/-- The channel dictionary of a successfully parsed body as the feed engine
reads it (`channel_info.get('title',{}).get('string', username)`,
`counters.get('subscribers', '1')`). -/
structure ChanInfo where
  username : String
  title : String
  subscribers : Option String
deriving Repr, DecidableEq

/-- One parsed post as the feed engine reads it. -/
structure FPostData where
  id : Int
  content : FContent
  views : Option String
  date : Option String
  edited : Bool
deriving Repr, DecidableEq

/-- One channel's body as consumed by `_process_channel_posts_ultra_fast`;
`posts = none` models a body without `content`/`posts` keys. -/
structure CD where
  channel : ChanInfo
  posts : Option (List FPostData)
deriving Repr, DecidableEq

/-- The outcome of one `asyncio.wait_for(self.telegram.body(u), 8.0)` call as
seen through `gather(..., return_exceptions=True)`: an exception (timeout
included), a falsy `{}` body (failed fetch), or a truthy parsed body. -/
inductive FOut where
  | exn
  | emptyBody
  | data (d : CD)
deriving Repr, DecidableEq

/-- Insertion order of the `tasks` dictionary: the distinct usernames in
first-occurrence order. -/
def dedupExact : List String → List String
  | [] => []
  | u :: us => u :: (dedupExact us).filter (fun v => v ≠ u)

/-- One cache update of `fetch_channel_data_batch`: only non-exception truthy
results are stored, under the lowercased username. -/
def cacheStep (fetch : String → FOut) (acc : List (String × CD)) (u : String) :
    List (String × CD) :=
  match fetch u with
  | .data d => setAssoc acc (lowerStr u) d
  | _ => acc

/-- The `_channel_cache` contents after `fetch_channel_data_batch` on a fresh
`PostDataPreparer` (the cache starts empty: one entry per successful truthy
fetch, keyed by `username.lower()`, later writes overwriting earlier ones). -/
def cacheAfter (fetch : String → FOut) (usernames : List String) : List (String × CD) :=
  (dedupExact usernames).foldl (cacheStep fetch) []

/-- The map returned by `fetch_channel_data_batch`: each requested username is
answered from the cache under its lowercased key. -/
def channelDataMap (fetch : String → FOut) (usernames : List String) (u : String) :
    Option CD :=
  (cacheAfter fetch usernames).lookup (lowerStr u)

/-- `_process_post_instant` (the comment count is the one later assigned by
`_process_channel_posts_ultra_fast`, which happens before scoring). -/
def processPostInstant (now : ℚ) (pd : FPostData) (channel_title username : String)
    (subscribers comments : Int) : FPost :=
  mkFPost pd.id channel_title username
    (parse_datetime_fast now (pd.date.getD ""))
    (parse_numeric_value (some (pd.views.getD "0")) 0)
    (parse_content_type_single pd.content)
    pd.edited
    (parse_reactions_single pd.content.reacts)
    subscribers comments

/-- One entry of the final feed list: the parsed post dictionary augmented
with its channel (whose `username` is the deduplication key) and `_score`. -/
structure FeedEntry where
  username : String
  id : Int
  fscore : ℚ
deriving Repr, DecidableEq

/-- `_process_channel_posts_ultra_fast` (the `try/except` wrapper catches
nothing in this total model; `commentsOf` stands for the best-effort comment
counts, individual failures already defaulted to 0). -/
def processChannel (expf : ℚ → ℚ) (now : ℚ) (commentsOf : String → Int → Int)
    (username : String) (cd : CD) : List FeedEntry :=
  match cd.posts with
  | none => []
  | some posts =>
    if posts.isEmpty then []
    else
      let subscribers := parse_numeric_value (some (cd.channel.subscribers.getD "1")) 1
      posts.map (fun pd =>
        let pObj := processPostInstant now pd cd.channel.title username subscribers
          (commentsOf username pd.id)
        { username := cd.channel.username, id := pd.id, fscore := score expf pObj now })

/-- `prepare_multiple_channels`: fetch all channels, then process each
requested username that obtained data, concatenating in request order
(`asyncio.gather` preserves task order). -/
def prepare_multiple_channels (expf : ℚ → ℚ) (now : ℚ) (commentsOf : String → Int → Int)
    (fetch : String → FOut) (usernames : List String) : List FeedEntry :=
  if usernames.isEmpty then []
  else
    usernames.flatMap (fun u =>
      match channelDataMap fetch usernames u with
      | none => []
      | some d => processChannel expf now commentsOf u d)

/-! ### The feed route (`app/routes/v1/feed.py`) -/

/-- The descending order used by `all_posts.sort(key=..., reverse=True)`. -/
def feedGE (a b : FeedEntry) : Prop := b.fscore ≤ a.fscore

instance : DecidableRel feedGE := fun a b => inferInstanceAs (Decidable (b.fscore ≤ a.fscore))

instance : IsTotal FeedEntry feedGE := ⟨fun a b => le_total b.fscore a.fscore⟩

instance : IsTrans FeedEntry feedGE := ⟨fun _ _ _ h1 h2 => le_trans h2 h1⟩

/-- `all_posts.sort(key=lambda p: p.get("_score", 0), reverse=True)`:
Python's sort is a stable descending sort; the output of a stable sort is
uniquely determined by the key order, and `List.insertionSort` is stable, so
this is extensionally the source's sort.  (Every entry produced by the
preparer carries `_score`, modelled as the `fscore` field.) -/
def sortDesc (l : List FeedEntry) : List FeedEntry := List.insertionSort feedGE l

def feedKey (e : FeedEntry) : String × Int := (e.username, e.id)

/-- The deduplication loop of `create_feed` (`seen` set, first occurrence
wins). -/
def dedupFeed (seen : List (String × Int)) : List FeedEntry → List FeedEntry
  | [] => []
  | e :: es =>
    if feedKey e ∈ seen then dedupFeed seen es
    else e :: dedupFeed (feedKey e :: seen) es

/-- `create_feed` after `prepare_multiple_channels`: sort by `_score`
descending, then deduplicate by `(channel username, post id)`, first
occurrence kept. -/
def create_feed (l : List FeedEntry) : List FeedEntry := dedupFeed [] (sortDesc l)

/-! ### Concrete documents used in counterexamples and witnesses -/

def c2TimeNode : HNode := .elem "time" [("datetime", "2024-01-01T00:00:00+00:00")] []

def c2DateNode : HNode := .elem "a" [("class", "tgme_widget_message_date")] [c2TimeNode]

def c2MetaNode : HNode := .elem "span" [("class", "tgme_widget_message_meta")] [.txt "10:00"]

/-- A message bubble with footer nodes but no content of any kind. -/
def c2Buble : HNode :=
  .elem "div" [("class", "tgme_widget_message_bubble")] [c2DateNode, c2MetaNode]

def c2Message : HNode :=
  .elem "div" [("class", "tgme_widget_message"), ("data-post", "chan/5")] [c2Buble]

def wrapNode (m : HNode) : HNode := .elem "div" [("class", "tgme_widget_message_wrap")] [m]

/-- A document with a single, entirely content-free message. -/
def c2Doc : HNode := .elem "main" [] [wrapNode c2Message]

def c2EmptyContent : ContentMap :=
  { text := none, media := none, poll := none, inline := none, reply := none,
    preview_link := none, reacts := none }

def c2ExpectedFooter : FooterDict :=
  { views := none, edited := false, author := none,
    date := { dstring := "2024-01-01T00:00:00+00:00", unix := 1704067200 } }

def c2ExpectedPost : PostD :=
  { id := 5, content := c2EmptyContent, footer := c2ExpectedFooter,
    view := none, forwarded := none }

/-- A message bubble whose `.tgme_widget_message_date > time` node is missing. -/
def c8Buble : HNode := .elem "div" [("class", "tgme_widget_message_bubble")] [c2MetaNode]

def c8Message : HNode :=
  .elem "div" [("class", "tgme_widget_message"), ("data-post", "chan/6")] [c8Buble]

/-- A document with one well-formed message followed by one whose footer date
node is missing. -/
def c8Doc : HNode := .elem "main" [] [wrapNode c2Message, wrapNode c8Message]

/-- An emoji icon whose background PNG name `FF` is not decodable UTF-8. -/
def c9BadEmoji : HNode :=
  .elem "i" [("class", "emoji"),
    ("style", "background-image:url('//telegram.org/img/emoji/40/FF.png')")] []

/-- A reaction with a count (`5`) whose only glyph source is the undecodable
background image. -/
def c9BadReaction : HNode := .elem "span" [("class", "tgme_reaction")] [c9BadEmoji, .txt "5"]

/-- An emoji icon whose background PNG name `E2AD90` decodes to `⭐`. -/
def c9GoodEmoji : HNode :=
  .elem "i" [("class", "emoji"),
    ("style", "background-image:url('//telegram.org/img/emoji/40/E2AD90.png')")] []

def c9GoodReaction : HNode := .elem "span" [("class", "tgme_reaction")] [c9GoodEmoji, .txt "7"]

def c9Message : HNode :=
  .elem "div" [("class", "tgme_widget_message"), ("data-post", "chan/9")]
    [.elem "div" [("class", "tgme_widget_message_reactions")] [c9BadReaction]]

/-- A content-free message with the given `data-post` attribute. -/
def c3Message (dp : String) : HNode :=
  .elem "div" [("class", "tgme_widget_message"), ("data-post", dp)] [c2Buble]

/-- The `more` fragment of spec §8's scenario: posts 998, 999 and 1000. -/
def c3Doc : HNode :=
  .elem "main" []
    [wrapNode (c3Message "chan/998"), wrapNode (c3Message "chan/999"),
     wrapNode (c3Message "chan/1000")]

def c3Post (i : Int) : PostD :=
  { id := i, content := c2EmptyContent, footer := c2ExpectedFooter,
    view := none, forwarded := none }

/-- A concrete stand-in for the Lexbor parser: the empty document for the
empty string, the three-post fragment otherwise. -/
def c3Parse : String → HNode := fun s => if s = "" then .elem "html" [] [] else c3Doc

def c3Result : MoreResult := { posts := [c3Post 998, c3Post 999], offset := [] }

/-- A post content map with one `gif` media item and a poll. -/
def c5Content : FContent :=
  { text := none, media := [{ ftype := "gif" }], poll := some (), reacts := [] }

def c5StickerContent : FContent :=
  { text := none, media := [{ ftype := "sticker" }], poll := none, reacts := [] }

/-- A minimal parsed post for the feed pipeline. -/
def c7Post : FPostData :=
  { id := 11, content := { text := none, media := [], poll := none, reacts := [] },
    views := none, date := none, edited := false }

def c7Data : CD :=
  { channel := { username := "abcd", title := "T", subscribers := some "100" },
    posts := some [c7Post] }

/-- Fetch outcomes: the lowercase spelling succeeds, everything else raises
(e.g. times out). -/
def c7Fetch : String → FOut := fun u => if u = "abcd" then .data c7Data else .exn

def c7FetchAB : String → FOut :=
  fun u => if u = "aa" then .data c7Data else .exn

/-- Feed entries with a duplicated `(username, id)` key. -/
def c6Input : List FeedEntry :=
  [{ username := "a", id := 5, fscore := 1 }, { username := "b", id := 5, fscore := 3 },
   { username := "a", id := 5, fscore := 2 }]

/-! ### Supporting lemmas -/

theorem pySlice_of_occursAt {hay sub : Chars} {i : Nat} (h : occursAt hay sub i = true) :
    pySlice hay (i : Int) ((i : Int) + (sub.length : Int)) = sub := by
  have hocc : (hay.drop i).take sub.length = sub := by
    simpa [occursAt] using h
  have hcast : ((i : Int) + (sub.length : Int)) = ((i + sub.length : Nat) : Int) := by push_cast; ring
  unfold pySlice pyIdx
  rw [hcast]
  simp only [Int.toNat_ofNat, if_neg (by omega : ¬ ((i : Int) < 0)),
    if_neg (by omega : ¬ (((i + sub.length : Nat) : Int) < 0))]
  rcases le_or_lt i hay.length with hin | hin
  · rcases le_or_lt (i + sub.length) hay.length with hfit | hfit
    · rw [Nat.min_eq_left hfit, Nat.min_eq_left hin, ← List.take_drop i sub.length hay]
      exact hocc
    · rw [Nat.min_eq_right (Nat.le_of_lt hfit), Nat.min_eq_left hin, List.take_length]
      have hlen : (hay.drop i).length ≤ sub.length := by
        simp only [List.length_drop]; omega
      rw [List.take_of_length_le hlen] at hocc
      exact hocc
  · have hdrop : hay.drop i = [] := List.drop_eq_nil_of_le (Nat.le_of_lt hin)
    rw [hdrop] at hocc
    simp only [List.take_nil] at hocc
    rw [Nat.min_eq_right (Nat.le_of_lt hin)]
    rw [List.drop_eq_nil_of_le (by simp [List.length_take])]
    exact hocc

theorem pyFind_occursAt {hay sub : Chars} {start : Int} (hres : 0 ≤ pyFind hay sub start) :
    occursAt hay sub (pyFind hay sub start).toNat = true := by
  cases hfind : (List.range (hay.length + 1)).find?
      (fun i => decide (pyStart hay.length start ≤ i) && occursAt hay sub i) with
  | none =>
    exfalso
    rw [pyFind, hfind] at hres
    exact absurd hres (by norm_num : ¬ (0 : Int) ≤ -1)
  | some i =>
    rw [pyFind, hfind]
    show occursAt hay sub ((i : Int)).toNat = true
    have hp := List.find?_some hfind
    simp only [Bool.and_eq_true, decide_eq_true_eq] at hp
    simpa using hp.2

theorem processEntityMatch_some {textOnly : Chars} {m : MatchInfo} {off newOff : Int}
    {ec : Entity × Chars}
    (hp : processEntityMatch textOnly m off = (some ec, newOff)) :
    ec.1.offset = pyFind textOnly ec.2 off ∧ ec.1.length = ec.2.length := by
  unfold processEntityMatch at hp
  rcases hid : identifyEntityType m with ⟨t?, urlG, depth⟩
  rw [hid] at hp
  cases t? with
  | none => simp at hp
  | some t =>
    simp only [Prod.mk.injEq, Option.some.injEq] at hp
    rcases hp with ⟨hec, _⟩
    rw [← hec]
    exact ⟨rfl, rfl⟩

theorem parseLoopA_roundtrip (textOnly : Chars) :
    ∀ (ms : List MatchInfo) (off : Int) (e : Entity) (span : Chars),
      (e, span) ∈ parseLoopA textOnly ms off → 0 ≤ e.offset →
      pySlice textOnly e.offset (e.offset + (e.length : Int)) = span ∧ e.length = span.length := by
  intro ms
  induction ms with
  | nil => intro off e span h _; simp [parseLoopA] at h
  | cons m ms ih =>
    intro off e span hmem hoff
    rw [parseLoopA] at hmem
    rcases hp : processEntityMatch textOnly m off with ⟨oec, newOff⟩
    rw [hp] at hmem
    cases oec with
    | none => exact ih _ _ _ hmem hoff
    | some ec =>
      rcases List.mem_cons.mp hmem with heq | htail
      · rcases processEntityMatch_some hp with ⟨hoffeq, hleneq⟩
        have hee : ec = (e, span) := heq.symm
        rw [hee] at hoffeq hleneq
        simp only at hoffeq hleneq
        rw [hoffeq, hleneq]
        rw [hoffeq] at hoff
        have hocc : occursAt textOnly span (pyFind textOnly span off).toNat = true :=
          pyFind_occursAt hoff
        have hsl := pySlice_of_occursAt hocc
        rw [Int.toNat_of_nonneg hoff] at hsl
        exact ⟨hsl, rfl⟩
      · exact ih _ _ _ htail hoff

/-! ### Claim theorems -/

/-- C1 (counterexample): on the post fragment `<i class="x#tag">hi</i>` the
hashtag pattern matches `#tag` inside a tag attribute; the attribute text is
stripped from the plain-text projection `hi`, so the cursor search fails and
the emitted entity has offset `-1`, length 4, while
`plain_text[-1:-1+4] = "i" ≠ "#tag"`: the round-trip property of the claim
fails on this input. -/
theorem C1_roundtrip_counterexample :
    parse_message_annotated "<i class=\"x#tag\">hi</i>".data =
      [({ offset := -1, length := 4, etype := "hashtag", url := none }, "#tag".data)] ∧
    textOnlyOf "<i class=\"x#tag\">hi</i>".data = "hi".data ∧
    pySlice "hi".data (-1) (-1 + 4) ≠ "#tag".data := by
  refine ⟨by decide, by decide, by decide⟩

/-- C1 (amended): for every post HTML fragment, every entity returned by
`EntitiesParser.parse_message` whose cursor search succeeded (offset ≥ 0, the
search starting from the previous accepted entity's end offset) satisfies the
round-trip property: the plain-text slice `[offset, offset+length)` equals the
entity's extracted span content, and the recorded length is the span's length.
Entities whose span is not found at or after the cursor are emitted with
offset `-1` and do not satisfy the slice equation. -/
theorem C1_roundtrip_of_offset_nonneg (body : Chars) (e : Entity) (span : Chars)
    (hmem : (e, span) ∈ parse_message_annotated body) (hoff : 0 ≤ e.offset) :
    pySlice (textOnlyOf body) e.offset (e.offset + (e.length : Int)) = span ∧
      e.length = span.length :=
  parseLoopA_roundtrip (textOnlyOf body) _ 0 e span hmem hoff

/-- Witness for C1 (amended) at the concrete fragment `<b>hi</b>`. -/
theorem C1_roundtrip_witness :
    pySlice (textOnlyOf "<b>hi</b>".data) 0 (0 + ((2 : Nat) : Int)) = "hi".data ∧
      (2 : Nat) = "hi".data.length :=
  C1_roundtrip_of_offset_nonneg "<b>hi</b>".data
    { offset := 0, length := 2, etype := "bold", url := none } "hi".data
    (by decide) (by decide)

theorem postGetLoop_length (sel : Option Int) :
    ∀ (ms : List HNode) (posts : List PostD),
      postGetLoop sel ms = .ok posts → selectedCount sel ms = .ok posts.length := by
  intro ms
  induction ms with
  | nil =>
    intro posts h
    rw [postGetLoop] at h
    cases h
    rfl
  | cons m ms ih =>
    intro posts h
    rw [postGetLoop] at h
    rw [selectedCount]
    cases hid : postIdOf m with
    | error e => simp [hid] at h
    | ok identifier =>
      simp only [hid] at h ⊢
      by_cases hc : checkSelector identifier sel
      · simp only [hc, if_true] at h ⊢
        cases hb : cssFirst (hasClass "tgme_widget_message_bubble") m with
        | none => simp [hb] at h
        | some buble =>
          simp only [hb] at h
          cases hcf : parseContentFields buble m with
          | error e => simp [hcf] at h
          | ok content =>
            simp only [hcf] at h
            cases hbp : buildPostObject m buble content with
            | error e => simp [hbp] at h
            | ok post =>
              simp only [hbp] at h
              cases hrest : postGetLoop sel ms with
              | error e => simp [hrest] at h
              | ok rest =>
                simp only [hrest] at h
                cases h
                rw [ih rest hrest]
                simp
      · simp only [hc, if_false, Bool.false_eq_true] at h ⊢
        rw [ih posts h]

/-- C2 (counterexample): a message node whose merged content map is empty is
NOT excluded from `Post.get()`: on a document whose single message carries
only the footer nodes, `Post.get` returns that post with `content = {}`. -/
theorem C2_empty_post_not_dropped :
    postGet c2Doc none = .ok [c2ExpectedPost] ∧ c2ExpectedPost.content.isEmptyC = true := by
  refine ⟨by rfl, by rfl⟩

/-- C2 (amended): `Post.get` performs no content-based filtering at all: when
it succeeds, it returns exactly one post for every message node passing the
selector check — messages whose merged content map is empty included (their
post simply carries `content = {}`). -/
theorem C2_one_post_per_selected_message (doc : HNode) (sel : Option Int)
    (posts : List PostD) (h : postGet doc sel = .ok posts) :
    selectedCount sel (messagesOf doc) = .ok posts.length :=
  postGetLoop_length sel (messagesOf doc) posts h

/-- Witness for C2 (amended) on the concrete single-empty-message document. -/
theorem C2_one_post_per_selected_message_witness :
    selectedCount none (messagesOf c2Doc) = .ok 1 := by
  have h := C2_one_post_per_selected_message c2Doc none [c2ExpectedPost] (by rfl)
  simpa using h

/-- C8 (counterexample): an unexpected HTML shape does crash the whole parse:
on a document whose second message lacks the footer's date/time node,
`Post.get` raises `AttributeError` — the well-formed sibling post is lost with
it, instead of the field being omitted and processing continuing. -/
theorem C8_missing_date_crashes_document :
    postGet c8Doc none = .error PyErr.attributeError := by rfl

/-- C8 (amended): only genuinely optional fields (views, author, forwarded,
reply, …) are omitted on missing markup; the footer's date/time node is
structurally required: whenever `.tgme_widget_message_date > time` is absent
from a bubble, `Post.footer` raises `AttributeError` (and aborts `Post.get`
for the whole document, as the counterexample shows). -/
theorem C8_footer_raises_on_missing_date (b : HNode)
    (h : cssChildFirst (hasClass "tgme_widget_message_date") (isTag "time") b = none) :
    footerOf b = .error PyErr.attributeError := by
  simp only [footerOf, h]

/-- Witness for C8 (amended) at the concrete date-less bubble. -/
theorem C8_footer_raises_witness : footerOf c8Buble = .error PyErr.attributeError :=
  C8_footer_raises_on_missing_date c8Buble (by rfl)

/-- C9 (counterexample): when the hex decode of the background-image PNG name
fails, the reaction entry is NOT kept without an emoji field — it is dropped
entirely: the reaction with count `5` and undecodable image name `FF` yields
`None`, and the post's reaction list is empty (`None`). -/
theorem C9_failed_decode_drops_reaction :
    extractSingleReaction c9BadReaction = .ok none ∧
      reactionsOf c9Message = .ok none := by
  refine ⟨by rfl, by rfl⟩

/-- C9 (amended): for a reaction node with a count but no literal glyph, the
parser attempts to recover the emoji by hex-decoding the PNG file-name segment
of the `background-image` style into UTF-8; on success the reaction is
included with that emoji, while a failed (or empty) decode drops the entire
reaction entry. -/
theorem C9_style_decode_behaviour (rn img lc : HNode)
    (hlast : lastChild rn = some lc)
    (hpaid : occursSub "tgme_reaction_paid".data (classStr rn).data = false)
    (himg : cssFirst (fun x => isTag "i" x && hasClass "emoji" x) rn = some img)
    (hnob : cssFirst (fun x => isTag "b" x) img = none) :
    extractSingleReaction rn =
      .ok (match extractEmojiFromStyle img with
        | some e =>
          if e = "" then none
          else
            some
              { count := ⟨textC lc⟩, rtype := "emoji", emoji := some e, emoji_id := none }
        | none => none) := by
  simp only [extractSingleReaction, hlast, hpaid, himg, hnob]
  cases hex : extractEmojiFromStyle img with
  | none => simp
  | some e =>
    by_cases he : e = "" <;> simp [he]

/-- C3: for every channel fragment, pivot position and direction, the result
of `Telegram.more` never contains a post whose id equals the pivot: a failed
fetch yields the empty map, the empty-string response parses to a document
with no message nodes (the modelling hypothesis `hempty`), and any other
response has every post with `id == position` filtered out before being
returned.  (`More.get` is modelled from spec §4.5; `parser/methods/more.py`
is absent from `src/`.) -/
theorem C3_more_excludes_pivot (parse : String → HNode) (response : Option String)
    (position : Int) (r : MoreResult)
    (hempty : messagesOf (parse "") = [])
    (h : telegramMore parse response position = .ok (some r)) :
    ∀ p ∈ r.posts, p.id ≠ position := by
  intro p hp
  cases response with
  | none => simp [telegramMore] at h
  | some s =>
    by_cases hs : s = ""
    · subst hs
      have hz : postGet (parse "") none = .ok ([] : List PostD) := by
        rw [postGet, hempty]; rfl
      simp only [telegramMore, if_pos rfl, moreGet, hz] at h
      cases h
      simp at hp
    · simp only [telegramMore, if_neg hs] at h
      cases hm : moreGet (parse s) with
      | error e => simp [hm] at h
      | ok r0 =>
        simp only [hm] at h
        cases h
        have hf := List.of_mem_filter hp
        simpa using hf

/-- Witness for C3 on spec §8's scenario: `more("chan", 1000, "before")` over
a fragment with posts 998, 999, 1000 keeps 998 (and 999) and excludes 1000. -/
theorem C3_more_excludes_pivot_witness : (c3Post 998).id ≠ 1000 :=
  C3_more_excludes_pivot c3Parse (some "<x>") 1000 c3Result (by rfl) (by rfl)
    (c3Post 998) (by decide)

/-- C4: with the default weights,
`score = min((0.4·engagement + 0.2·content_score + (0.02 if edited)) × (freshness + 0.1), 10)`
with
`engagement = (min(views/subs,10) + min((pos−neg)/subs,1) + min(comments/subs,0.5))/3`
over the fixed positive/negative emoji sets, the score never exceeds 10, and
`Post.__init__` clamps subscribers to `max(subscribers, 1) ≥ 1`, so no
division by zero can occur. -/
theorem C4_score_formula (expf : ℚ → ℚ) (current : ℚ) (p : FPost) (pid : Int)
    (cn un : String) (pub : ℚ) (views : Int) (content : CSig) (edited : Bool)
    (reactions : List (String × Int)) (subs : Int) (comments : Int) :
    score expf p current =
      min ((((2 : ℚ) / 5) *
            ((min ((p.views : ℚ) / (p.subscribers : ℚ)) 10 +
              min (((((POSITIVE_REACTIONS.map (reactGet p.reactions)).sum -
                (NEGATIVE_REACTIONS.map (reactGet p.reactions)).sum : Int)) : ℚ) /
                (p.subscribers : ℚ)) 1 +
              min ((p.comments : ℚ) / (p.subscribers : ℚ)) (1 / 2)) / 3) +
          ((1 : ℚ) / 5) * content_score p + (if p.edited then (1 : ℚ) / 50 else 0)) *
          (freshness_score expf p current + 1 / 10)) 10 ∧
    score expf p current ≤ 10 ∧
    (mkFPost pid cn un pub views content edited reactions subs comments).subscribers =
      max subs 1 ∧
    1 ≤ (mkFPost pid cn un pub views content edited reactions subs comments).subscribers := by
  refine ⟨rfl, min_le_right _ _, rfl, le_max_right _ _⟩

/-- C5 (counterexample): a media item of type `gif` does NOT increment the
`gifs` count and a poll does NOT increment `poll` — the loop counts
`sticker` media as gifs and never touches `poll`. -/
theorem C5_gif_poll_not_counted :
    (parse_content_type_single c5Content).gifs = 0 ∧
    (c5Content.media.filter (fun m => m.ftype = "gif")).length = 1 ∧
    c5Content.poll.isSome = true ∧
    (parse_content_type_single c5Content).poll = 0 ∧
    parse_content_type_single c5StickerContent =
      { ctext := [], photos := 0, videos := 0, gifs := 1, poll := 0 } := by
  refine ⟨by rfl, by rfl, by rfl, by rfl, by rfl⟩

theorem ctsFoldCounts (ms : List FMedia) (acc : CSig) :
    ms.foldl ctsStep acc =
      { acc with photos := acc.photos + (ms.filter (fun m => m.ftype = "image")).length
               , videos := acc.videos + (ms.filter (fun m => m.ftype = "video")).length
               , gifs := acc.gifs + (ms.filter (fun m => m.ftype = "sticker")).length } := by
  induction ms generalizing acc with
  | nil => simp
  | cons m ms ih =>
    rw [List.foldl_cons, ih]
    by_cases h1 : m.ftype = "image"
    · simp [ctsStep, h1, List.filter_cons]
      omega
    · by_cases h2 : m.ftype = "video"
      · simp [ctsStep, h1, h2, List.filter_cons]
        omega
      · by_cases h3 : m.ftype = "sticker"
        · simp [ctsStep, h1, h2, h3, List.filter_cons]
          omega
        · simp [ctsStep, h1, h2, h3, List.filter_cons]

/-- C5 (amended): the content signature records the post's text together with
the media counts the code actually computes — `image` media increment
`photos`, `video` media increment `videos`, `sticker` media increment `gifs`
(media of type `gif` are not counted), and `poll` always stays 0 — and
`content_score = min(0.3·min(photos,10) + 0.5·min(videos,10) + 0.2·min(gifs,10)
+ 0.3·min(poll,10) + min(text_len/500,2)·0.1, 3)`. -/
theorem C5_content_signature (content : FContent) (p : FPost) :
    parse_content_type_single content =
      { ctext := content.text.getD []
      , photos := (content.media.filter (fun m => m.ftype = "image")).length
      , videos := (content.media.filter (fun m => m.ftype = "video")).length
      , gifs := (content.media.filter (fun m => m.ftype = "sticker")).length
      , poll := 0 } ∧
    content_score p =
      min (((3 : ℚ) / 10) * min (p.content.photos : ℚ) 10 +
        ((1 : ℚ) / 2) * min (p.content.videos : ℚ) 10 +
        ((1 : ℚ) / 5) * min (p.content.gifs : ℚ) 10 +
        ((3 : ℚ) / 10) * min (p.content.poll : ℚ) 10 +
        min ((p.content.ctext.length : ℚ) / 500) 2 * (1 / 10)) 3 := by
  constructor
  · rw [parse_content_type_single, ctsFoldCounts]
    cases content with
    | mk t media poll reacts =>
      cases t <;> simp
  · rw [content_score]
    simp only [contentWeights, List.foldl_cons, List.foldl_nil, csigGet]
    norm_num
    congr 1
    push_cast [Nat.cast_min]
    ring

/-- C10: a footer date string that the ISO-8601 parser rejects (the empty
string of a missing date field included) makes `parse_datetime_fast` return
the current UTC time instead of failing, and such a post is scored with
maximal freshness: the decay curve equals 1 at age zero and never exceeds 1
at any non-negative age (given that `exp` of a non-positive argument is at
most 1). -/
theorem C10_datetime_fallback (expf : ℚ → ℚ) (now : ℚ) (s : String) (h : ℚ)
    (hparse : isoParse (replaceSub "Z".data "+00:00".data s.data) = none)
    (hexp : ∀ x : ℚ, x ≤ 0 → expf x ≤ 1) (hpos : 0 ≤ h) :
    parse_datetime_fast now s = now ∧
    freshness_hours expf ((now - now) / 3600) = 1 ∧
    freshness_hours expf h ≤ 1 := by
  refine ⟨?_, ?_, ?_⟩
  · rw [parse_datetime_fast, hparse]
  · norm_num [freshness_hours]
  · rw [freshness_hours]
    by_cases h24 : h ≤ 24
    · rw [if_pos h24]
      have : 0 ≤ (1 / 5 : ℚ) * (h / 24) := by positivity
      linarith
    · rw [if_neg h24]
      by_cases h168 : h ≤ 168
      · rw [if_pos h168]
        have harg : -(4 / 5 : ℚ) * (h / 24 - 1) ≤ 0 := by nlinarith
        have he := hexp _ harg
        nlinarith
      · rw [if_neg h168]
        have harg : -(2 : ℚ) * (h / 168 - 1) ≤ 0 := by nlinarith
        have he := hexp _ harg
        have h1 : (1 / 1000 : ℚ) ≤ 1 := by norm_num
        have h2 : (1 / 10 : ℚ) * expf (-2 * (h / 168 - 1)) ≤ 1 := by nlinarith
        exact max_le h1 h2

theorem lookup_setAssoc {α : Type} (k : String) (v : α) (k' : String) :
    ∀ l : List (String × α),
      (setAssoc l k v).lookup k' = if k' = k then some v else l.lookup k'
  | [] => by
    by_cases h : k' = k
    · simp [setAssoc, List.lookup, h]
    · have hb : (k' == k) = false := beq_eq_false_iff_ne.mpr h
      simp [setAssoc, List.lookup, h, hb]
  | (k0, v0) :: rest => by
    rw [setAssoc]
    by_cases h0 : k0 = k
    · rw [if_pos h0]
      subst h0
      by_cases h' : k' = k0
      · simp [List.lookup, h', beq_iff_eq]
      · have hb : (k' == k0) = false := beq_eq_false_iff_ne.mpr h'
        simp [List.lookup, h', hb]
    · rw [if_neg h0]
      by_cases h' : k' = k0
      · have hkk : ¬ (k' = k) := fun hh => h0 (h'.symm.trans hh)
        simp [List.lookup, h', hkk, h0, beq_iff_eq]
      · have hb : (k' == k0) = false := beq_eq_false_iff_ne.mpr h'
        simp [List.lookup, h', hb, lookup_setAssoc k v k' rest]

theorem lookup_cacheFold_notin (fetch : String → FOut) (key : String) :
    ∀ (l : List String) (acc : List (String × CD)),
      (∀ v ∈ l, lowerStr v ≠ key) →
      (l.foldl (cacheStep fetch) acc).lookup key = acc.lookup key := by
  intro l
  induction l with
  | nil => intro acc _; rfl
  | cons v vs ih =>
    intro acc hne
    rw [List.foldl_cons]
    rw [ih (cacheStep fetch acc v) (fun w hw => hne w (List.mem_cons_of_mem v hw))]
    rw [cacheStep]
    cases fetch v with
    | data d =>
      rw [lookup_setAssoc]
      rw [if_neg (fun hh => hne v (List.mem_cons_self v vs) hh.symm)]
    | exn => rfl
    | emptyBody => rfl

theorem lookup_cacheFold_mem (fetch : String → FOut) :
    ∀ (l : List String) (acc : List (String × CD)) (u : String), u ∈ l → l.Nodup →
      (∀ a ∈ l, ∀ b ∈ l, lowerStr a = lowerStr b → a = b) →
      acc.lookup (lowerStr u) = none →
      (l.foldl (cacheStep fetch) acc).lookup (lowerStr u) =
        (match fetch u with | .data d => some d | _ => none) := by
  intro l
  induction l with
  | nil => intro acc u hu; exact absurd hu (List.not_mem_nil u)
  | cons v vs ih =>
    intro acc u hu hnd hinj hacc
    rw [List.foldl_cons]
    rcases List.mem_cons.mp hu with hv | hvs
    · subst hv
      have hvs' : u ∉ vs := (List.nodup_cons.mp hnd).1
      rw [lookup_cacheFold_notin fetch (lowerStr u) vs (cacheStep fetch acc u)
        (fun w hw hlow =>
          hvs' (hinj w (List.mem_cons_of_mem u hw) u (List.mem_cons_self u vs) hlow ▸ hw))]
      rw [cacheStep]
      cases fetch u with
      | data d =>
        rw [lookup_setAssoc]
        rw [if_pos rfl]
      | exn => exact hacc
      | emptyBody => exact hacc
    · have hvu : v ≠ u := fun hh => (List.nodup_cons.mp hnd).1 (hh ▸ hvs)
      refine ih (cacheStep fetch acc v) u hvs (List.nodup_cons.mp hnd).2
        (fun a ha b hb => hinj a (List.mem_cons_of_mem v ha) b (List.mem_cons_of_mem v hb)) ?_
      rw [cacheStep]
      cases fetch v with
      | data d =>
        rw [lookup_setAssoc]
        rw [if_neg (fun hh =>
          hvu (hinj v (List.mem_cons_self v vs) u (List.mem_cons_of_mem v hvs) hh.symm))]
        exact hacc
      | exn => exact hacc
      | emptyBody => exact hacc

theorem mem_dedupExact : ∀ (l : List String) (v : String), v ∈ dedupExact l ↔ v ∈ l := by
  intro l
  induction l with
  | nil => intro v; rfl
  | cons u us ih =>
    intro v
    rw [dedupExact]
    constructor
    · intro h
      rcases List.mem_cons.mp h with hv | hv
      · exact hv ▸ List.mem_cons_self u us
      · exact List.mem_cons_of_mem u ((ih v).mp (List.mem_of_mem_filter hv))
    · intro h
      rcases List.mem_cons.mp h with hv | hv
      · exact hv ▸ List.mem_cons_self u _
      · by_cases hvu : v = u
        · exact hvu ▸ List.mem_cons_self u _
        · exact List.mem_cons_of_mem u
            (List.mem_filter.mpr ⟨(ih v).mpr hv, by simpa using hvu⟩)

theorem nodup_dedupExact : ∀ l : List String, (dedupExact l).Nodup := by
  intro l
  induction l with
  | nil => exact List.nodup_nil
  | cons u us ih =>
    rw [dedupExact]
    refine List.nodup_cons.mpr ⟨?_, ih.filter _⟩
    intro hmem
    have := List.of_mem_filter hmem
    simp at this

theorem channelDataMap_eq (fetch : String → FOut) (usernames : List String)
    (hinj : ∀ a ∈ usernames, ∀ b ∈ usernames, lowerStr a = lowerStr b → a = b)
    (u : String) (hu : u ∈ usernames) :
    channelDataMap fetch usernames u =
      (match fetch u with | .data d => some d | _ => none) := by
  rw [channelDataMap, cacheAfter]
  exact lookup_cacheFold_mem fetch (dedupExact usernames) [] u
    ((mem_dedupExact usernames u).mpr hu) (nodup_dedupExact usernames)
    (fun a ha b hb => hinj a ((mem_dedupExact usernames a).mp ha)
      b ((mem_dedupExact usernames b).mp hb))
    rfl

/-- C7 (counterexample): a channel whose fetch raises can still contribute
posts.  With `["AbCd", "abcd"]` where the fetch of `AbCd` raises and the
fetch of `abcd` succeeds with one post, the per-request cache key
`username.lower()` lets `AbCd` answer from `abcd`'s cache entry: the feed
contains two entries, whereas a zero contribution from the failed `AbCd`
would leave one (as the `["abcd"]` run shows). -/
theorem C7_alias_counterexample :
    c7Fetch "AbCd" = .exn ∧
    (prepare_multiple_channels (fun _ => 0) 0 (fun _ _ => 0) c7Fetch ["AbCd", "abcd"]).length
      = 2 ∧
    (prepare_multiple_channels (fun _ => 0) 0 (fun _ _ => 0) c7Fetch ["abcd"]).length = 1 := by
  refine ⟨by rfl, by rfl, by rfl⟩

/-- C7 (amended): provided no two distinct requested usernames share the same
lowercase form (the per-request cache is keyed by `username.lower()`, so a
case-variant alias can otherwise revive a failed channel from its twin's
cache entry), the feed preparation equals the concatenation, in request
order, of each channel's own processing — a channel whose fetch raised or
timed out (or returned a falsy body) contributes zero posts and leaves the
other channels' results untouched — and the aggregate never raises: if every
fetch fails, the result is the empty list. -/
theorem C7_failed_channels_degrade (expf : ℚ → ℚ) (now : ℚ)
    (commentsOf : String → Int → Int) (fetch : String → FOut) (usernames : List String)
    (hinj : ∀ a ∈ usernames, ∀ b ∈ usernames, lowerStr a = lowerStr b → a = b) :
    prepare_multiple_channels expf now commentsOf fetch usernames =
      usernames.flatMap (fun u =>
        match fetch u with
        | .data d => processChannel expf now commentsOf u d
        | _ => []) ∧
    ((∀ u ∈ usernames, ∀ d : CD, fetch u ≠ .data d) →
      prepare_multiple_channels expf now commentsOf fetch usernames = []) := by
  have h1 : prepare_multiple_channels expf now commentsOf fetch usernames =
      usernames.flatMap (fun u =>
        match fetch u with
        | .data d => processChannel expf now commentsOf u d
        | _ => []) := by
    rw [prepare_multiple_channels]
    by_cases hemp : usernames.isEmpty
    · rw [if_pos hemp]
      rw [List.isEmpty_iff.mp hemp]
      rfl
    · rw [if_neg hemp]
      refine List.flatMap_congr ?_
      intro u hu
      rw [channelDataMap_eq fetch usernames hinj u hu]
      cases fetch u <;> rfl
  refine ⟨h1, ?_⟩
  intro hfail
  rw [h1, List.flatMap_eq_nil_iff]
  intro u hu
  cases hf : fetch u with
  | data d => exact absurd hf (hfail u hu d)
  | exn => rfl
  | emptyBody => rfl

/-- Witness for C7 (amended) on `["aa", "bb"]` where `aa` succeeds and `bb`
raises. -/
theorem C7_failed_channels_degrade_witness :
    prepare_multiple_channels (fun _ => 0) 0 (fun _ _ => 0) c7FetchAB ["aa", "bb"] =
      ["aa", "bb"].flatMap (fun u =>
        match c7FetchAB u with
        | .data d => processChannel (fun _ => 0) 0 (fun _ _ => 0) u d
        | _ => []) :=
  (C7_failed_channels_degrade (fun _ => 0) 0 (fun _ _ => 0) c7FetchAB ["aa", "bb"]
    (by decide)).1

/-- Witness for C10 at the empty date string. -/
theorem C10_datetime_fallback_witness :
    parse_datetime_fast 5 "" = 5 ∧
    freshness_hours (fun _ => 1) (((5 : ℚ) - 5) / 3600) = 1 ∧
    freshness_hours (fun _ => 1) 30 ≤ 1 :=
  C10_datetime_fallback (fun _ => 1) 5 "" 30 (by rfl)
    (fun _ _ => le_refl 1) (by norm_num)

theorem dedupFeed_subset (e : FeedEntry) :
    ∀ (s : List FeedEntry) (seen : List (String × Int)), e ∈ dedupFeed seen s → e ∈ s := by
  intro s
  induction s with
  | nil => intro seen h; simp [dedupFeed] at h
  | cons x xs ih =>
    intro seen h
    rw [dedupFeed] at h
    by_cases hx : feedKey x ∈ seen
    · rw [if_pos hx] at h
      exact List.mem_cons_of_mem x (ih seen h)
    · rw [if_neg hx] at h
      rcases List.mem_cons.mp h with he | he
      · exact he ▸ List.mem_cons_self x xs
      · exact List.mem_cons_of_mem x (ih _ he)

theorem dedupFeed_key_notin (e : FeedEntry) :
    ∀ (s : List FeedEntry) (seen : List (String × Int)),
      e ∈ dedupFeed seen s → feedKey e ∉ seen := by
  intro s
  induction s with
  | nil => intro seen h; simp [dedupFeed] at h
  | cons x xs ih =>
    intro seen h
    rw [dedupFeed] at h
    by_cases hx : feedKey x ∈ seen
    · rw [if_pos hx] at h
      exact ih seen h
    · rw [if_neg hx] at h
      rcases List.mem_cons.mp h with he | he
      · exact he ▸ hx
      · intro hmem
        exact ih _ he (List.mem_cons_of_mem _ hmem)

theorem dedupFeed_max (e : FeedEntry) :
    ∀ (s : List FeedEntry) (seen : List (String × Int)), List.Pairwise feedGE s →
      e ∈ dedupFeed seen s →
      ∀ e' ∈ s, feedKey e' = feedKey e → e'.fscore ≤ e.fscore := by
  intro s
  induction s with
  | nil => intro seen _ h; simp [dedupFeed] at h
  | cons x xs ih =>
    intro seen hp h e' he' hk
    have hpx := (List.pairwise_cons.mp hp).1
    have hpxs := (List.pairwise_cons.mp hp).2
    rw [dedupFeed] at h
    by_cases hx : feedKey x ∈ seen
    · rw [if_pos hx] at h
      rcases List.mem_cons.mp he' with hh | hh
      · exfalso
        exact dedupFeed_key_notin e xs seen h (hk ▸ hh ▸ hx)
      · exact ih seen hpxs h e' hh hk
    · rw [if_neg hx] at h
      rcases List.mem_cons.mp h with he | he
      · subst he
        rcases List.mem_cons.mp he' with hh | hh
        · exact hh ▸ le_refl _
        · exact hpx e' hh
      · rcases List.mem_cons.mp he' with hh | hh
        · exfalso
          have := dedupFeed_key_notin e xs (feedKey x :: seen) he
          exact this (hk ▸ hh ▸ List.mem_cons_self _ _)
        · exact ih _ hpxs he e' hh hk

theorem dedupFeed_keys_nodup :
    ∀ (s : List FeedEntry) (seen : List (String × Int)),
      ((dedupFeed seen s).map feedKey).Nodup := by
  intro s
  induction s with
  | nil => intro seen; simp [dedupFeed]
  | cons x xs ih =>
    intro seen
    rw [dedupFeed]
    by_cases hx : feedKey x ∈ seen
    · rw [if_pos hx]
      exact ih seen
    · rw [if_neg hx]
      rw [List.map_cons]
      refine List.nodup_cons.mpr ⟨?_, ih _⟩
      intro hmem
      rcases List.mem_map.mp hmem with ⟨e, he, hke⟩
      exact dedupFeed_key_notin e xs _ he (hke ▸ List.mem_cons_self _ _)

theorem dedupFeed_key_mem (k : String × Int) :
    ∀ (s : List FeedEntry) (seen : List (String × Int)),
      k ∈ s.map feedKey → k ∉ seen → k ∈ (dedupFeed seen s).map feedKey := by
  intro s
  induction s with
  | nil => intro seen h _; simp at h
  | cons x xs ih =>
    intro seen h hseen
    rcases List.mem_map.mp h with ⟨e, he, hke⟩
    rcases List.mem_cons.mp he with hex | hexs
    · have hkx : k = feedKey x := by rw [← hke, hex]
      by_cases hx : feedKey x ∈ seen
      · exact absurd (by rw [hkx]; exact hx) hseen
      · rw [dedupFeed, if_neg hx, List.map_cons, hkx]
        exact List.mem_cons_self _ _
    · have hkxs : k ∈ xs.map feedKey := List.mem_map.mpr ⟨e, hexs, hke⟩
      by_cases hx : feedKey x ∈ seen
      · rw [dedupFeed, if_pos hx]
        exact ih seen hkxs hseen
      · rw [dedupFeed, if_neg hx, List.map_cons]
        by_cases hkx : k = feedKey x
        · rw [hkx]
          exact List.mem_cons_self _ _
        · refine List.mem_cons_of_mem _ (ih (feedKey x :: seen) hkxs ?_)
          intro hm
          rcases List.mem_cons.mp hm with hm1 | hm2
          · exact hkx hm1
          · exact hseen hm2

/-- C6: for every flattened list of scored posts, the route's
sort-then-deduplicate (`create_feed`) keeps exactly one entry per distinct
`(channel username, post id)` pair present in the input, the kept entry comes
from the input, and its `_score` is maximal among the input entries with that
key (the sort is stable descending, so the first occurrence after sorting is
a highest-scored one). -/
theorem C6_feed_sort_dedup (l : List FeedEntry) :
    (∀ k : String × Int,
      ((∃ e ∈ create_feed l, feedKey e = k) ↔ (∃ e ∈ l, feedKey e = k))) ∧
    ((create_feed l).map feedKey).Nodup ∧
    (∀ e ∈ create_feed l,
      e ∈ l ∧ ∀ e' ∈ l, feedKey e' = feedKey e → e'.fscore ≤ e.fscore) := by
  have hperm : List.Perm (sortDesc l) l := List.perm_insertionSort feedGE l
  have hsort : List.Pairwise feedGE (sortDesc l) := List.sorted_insertionSort feedGE l
  refine ⟨?_, dedupFeed_keys_nodup _ _, ?_⟩
  · intro k
    constructor
    · rintro ⟨e, he, hk⟩
      exact ⟨e, hperm.mem_iff.mp (dedupFeed_subset e _ _ he), hk⟩
    · rintro ⟨e, he, hk⟩
      have hmap : k ∈ (sortDesc l).map feedKey :=
        List.mem_map.mpr ⟨e, hperm.mem_iff.mpr he, hk⟩
      have := dedupFeed_key_mem k (sortDesc l) [] hmap (List.not_mem_nil k)
      rcases List.mem_map.mp this with ⟨e'', he'', hk''⟩
      exact ⟨e'', he'', hk''⟩
  · intro e he
    refine ⟨hperm.mem_iff.mp (dedupFeed_subset e _ _ he), ?_⟩
    intro e' he' hk
    exact dedupFeed_max e (sortDesc l) [] hsort he e' (hperm.mem_iff.mpr he') hk

/-- Witness for C6: on entries `[("a",5,1), ("b",5,3), ("a",5,2)]` the kept
`("a",5)` entry is the higher-scored one. -/
theorem C6_feed_sort_dedup_witness :
    ({ username := "a", id := 5, fscore := 1 } : FeedEntry).fscore ≤
      ({ username := "a", id := 5, fscore := 2 } : FeedEntry).fscore :=
  ((C6_feed_sort_dedup c6Input).2.2 { username := "a", id := 5, fscore := 2 }
      (by decide)).2
    { username := "a", id := 5, fscore := 1 } (by decide) (by decide)

/-- Witness for C9 (amended) at the concrete reaction whose PNG name decodes
to `⭐`. -/
theorem C9_style_decode_witness :
    extractSingleReaction c9GoodReaction =
      .ok (match extractEmojiFromStyle c9GoodEmoji with
        | some e =>
          if e = "" then none
          else
            some
              { count := ⟨textC (HNode.txt "7")⟩, rtype := "emoji", emoji := some e,
                emoji_id := none }
        | none => none) :=
  C9_style_decode_behaviour c9GoodReaction c9GoodEmoji (.txt "7")
    (by rfl) (by rfl) (by rfl) (by rfl)

end TMe
